import Mathlib

/-!
Shallow embedding of the task-selection and progression engine of the
`toucann-backend-v2` repository (FastAPI + SQLAlchemy backend).

The relational store is modelled as lists of rows (`DB`); SQLAlchemy's
`query(...).first()` becomes `List.find?`, `.all()` becomes `List.filter`,
`order_by` becomes an insertion sort by the query's key, ORM mutation of a
row fetched with `.first()` becomes `updateFirst`, and `session.add`
appends a row.  Timestamps (`datetime.utcnow()`) are integer seconds; a
`timedelta(days = d)` is `d * 86400` seconds and Python's
`timedelta.days` (floor) is `Int.fdiv _ 86400`.

Each definition is translated from the cited function of the source tree
(`backend/app/...`); comments name the file and function it embeds.
-/

namespace Toucann

/-- `ChallengeStatus` enum from `app/challenges/models.py`. -/
inductive ChallengeStatus
| NOT_STARTED
| IN_PROGRESS
| COMPLETE
deriving DecidableEq

/-- `ObjectiveStatus` enum from `app/challenges/models.py`. -/
inductive ObjectiveStatus
| INCOMPLETE
| COMPLETE
deriving DecidableEq

/-- `GoalStatus` enum from `app/goals/models.py`. -/
inductive GoalStatus
| NOT_STARTED
| IN_PROGRESS
| COMPLETE
deriving DecidableEq

/-- `GoalStepStatus` enum from `app/goals/models.py`. -/
inductive GoalStepStatus
| INCOMPLETE
| COMPLETE
deriving DecidableEq

/-- `NotificationType` enum from `app/notifications/models.py`. -/
inductive NotificationType
| DEADLINE
| NUDGE
| STREAK
deriving DecidableEq

/-- Row of the `challenges` table (`app/challenges/models.py`, class `Challenge`).
Only the columns read by the embedded routes are kept. -/
structure Challenge where
  id : Nat
  title : String
  is_active : Bool
  goal_id : Option Nat
  next_challenge_id : Option Nat
  sort_order : Int
  visible_to_students : Bool
  points : Int
  due_date : Option Int
  start_date : Option Int
  expires_at : Option Int
deriving DecidableEq

/-- Row of the `objectives` table (`app/challenges/models.py`, class `Objective`). -/
structure Objective where
  id : Nat
  challenge_id : Nat
  points : Int
  sort_order : Int
  is_required : Bool
deriving DecidableEq

/-- Row of the `challenge_links` table (`app/challenges/models.py`, class `ChallengeLink`). -/
structure ChallengeLink where
  from_challenge_id : Nat
  to_challenge_id : Nat
  condition : String
deriving DecidableEq

/-- Row of the `user_challenge_progress` table (`app/challenges/models.py`,
class `UserChallengeProgress`; column default `status = NOT_STARTED`,
nullable timestamps). -/
structure UserChallengeProgress where
  user_id : Nat
  challenge_id : Nat
  status : ChallengeStatus
  started_at : Option Int
  completed_at : Option Int
deriving DecidableEq

/-- Row of the `user_objective_progress` table (`app/challenges/models.py`,
class `UserObjectiveProgress`). -/
structure UserObjectiveProgress where
  user_id : Nat
  objective_id : Nat
  status : ObjectiveStatus
  completed_at : Option Int
deriving DecidableEq

/-- Row of the `snoozed_challenges` table (`app/challenges/models.py`,
class `SnoozedChallenge`). -/
structure SnoozedChallenge where
  user_id : Nat
  challenge_id : Nat
  snoozed_at : Int
  snoozed_until : Int
deriving DecidableEq

/-- Row of the `user_challenge_preferences` table (`app/challenges/models.py`,
class `UserChallengePreferences`).  `updated_at` is `none` until a route
stamps it. -/
structure UserChallengePreferences where
  user_id : Nat
  second_slot_enabled : Bool
  second_slot_challenge_id : Option Nat
  updated_at : Option Int
deriving DecidableEq

/-- Row of the `goals` table (`app/goals/models.py`, class `Goal`). -/
structure Goal where
  id : Nat
  title : String
  is_active : Bool
deriving DecidableEq

/-- Row of the `goal_steps` table (`app/goals/models.py`, class `GoalStep`). -/
structure GoalStep where
  id : Nat
  goal_id : Nat
  title : String
  points : Int
  sort_order : Int
  is_required : Bool
deriving DecidableEq

/-- Row of the `goal_links` table (`app/goals/models.py`, class `GoalLink`). -/
structure GoalLink where
  from_goal_id : Nat
  to_goal_id : Nat
  condition : String
deriving DecidableEq

/-- Row of the `user_goal_progress` table (`app/goals/models.py`,
class `UserGoalProgress`). -/
structure UserGoalProgress where
  user_id : Nat
  goal_id : Nat
  status : GoalStatus
  started_at : Option Int
  completed_at : Option Int
deriving DecidableEq

/-- Row of the `user_goal_step_progress` table (`app/goals/models.py`,
class `UserGoalStepProgress`). -/
structure UserGoalStepProgress where
  user_id : Nat
  step_id : Nat
  status : GoalStepStatus
  completed_at : Option Int
deriving DecidableEq

/-- Row of the `notifications` table (`app/notifications/models.py`,
class `Notification`).  The `id`/`created_at` columns are not read by the
embedded logic and are omitted. -/
structure Notification where
  user_id : Nat
  type : NotificationType
  title : String
  body : String
  related_challenge_id : Option Nat
  scheduled_for : Int
  dedup_key : Option String
  read_at : Option Int
  dismissed_at : Option Int
deriving DecidableEq

/-- The relational store consumed by the routes, one list per table. -/
structure DB where
  challenges : List Challenge
  objectives : List Objective
  challenge_links : List ChallengeLink
  challenge_progress : List UserChallengeProgress
  objective_progress : List UserObjectiveProgress
  snoozed : List SnoozedChallenge
  preferences : List UserChallengePreferences
  goals : List Goal
  goal_steps : List GoalStep
  goal_links : List GoalLink
  goal_progress : List UserGoalProgress
  goal_step_progress : List UserGoalStepProgress
  notifications : List Notification
deriving DecidableEq

/-- Errors surfaced by the routes (`HTTPException` status codes). -/
inductive ApiError
| notFound (msg : String)
| badRequest (msg : String)
deriving DecidableEq

deriving instance DecidableEq for Except

/-- Replace the first element satisfying `p` by its image under `f`:
the effect of mutating the ORM object returned by `.first()`. -/
def updateFirst (p : α → Bool) (f : α → α) : List α → List α
| [] => []
| x :: xs => if p x then f x :: xs else x :: updateFirst p f xs

/-- Insert `x` into `l` before the first element `y` with `le x y`. -/
def insertBy (le : α → α → Bool) (x : α) : List α → List α
| [] => [x]
| y :: ys => if le x y then x :: y :: ys else y :: insertBy le x ys

/-- Insertion sort; models a SQL `ORDER BY` with comparison `le`. -/
def sortBy (le : α → α → Bool) : List α → List α
| [] => []
| x :: xs => insertBy le x (sortBy le xs)

/-- `order_by(Challenge.sort_order, Challenge.id)` comparison (both ascending). -/
def challengeSortKeyLe (a b : Challenge) : Bool :=
  a.sort_order < b.sort_order || (a.sort_order == b.sort_order && a.id ≤ b.id)

/-- `order_by(Challenge.id)` comparison. -/
def challengeIdLe (a b : Challenge) : Bool :=
  a.id ≤ b.id

/-- `order_by(Objective.sort_order)` comparison. -/
def objectiveSortLe (a b : Objective) : Bool :=
  a.sort_order ≤ b.sort_order

/-- Challenge ids with a COMPLETE progress row for `uid`
(`students/routes.py`, `_get_available_challenges`, `completed_ids`). -/
def completedChallengeIds (db : DB) (uid : Nat) : List Nat :=
  (db.challenge_progress.filter
    (fun p => p.user_id == uid && p.status == ChallengeStatus.COMPLETE)).map
    (fun p => p.challenge_id)

/-- Challenge ids still snoozed at `now`
(`students/routes.py`, `_get_available_challenges`, `snoozed_ids`:
rows with `snoozed_until > now`). -/
def snoozedChallengeIds (db : DB) (uid : Nat) (now : Int) : List Nat :=
  (db.snoozed.filter
    (fun s => s.user_id == uid && now < s.snoozed_until)).map
    (fun s => s.challenge_id)

/-- Date-window filters of `_get_available_challenges`:
`(start_date is null or start_date <= now) and (expires_at is null or expires_at > now)`. -/
def challengeDateOk (c : Challenge) (now : Int) : Bool :=
  (match c.start_date with
   | none => true
   | some d => d ≤ now) &&
  (match c.expires_at with
   | none => true
   | some d => now < d)

/-- `students/routes.py`, `_get_available_challenges(db, user_id, exclude_ids)`.
The source collects `completed_ids + snoozed_ids + exclude_ids` into a set
and adds a `~Challenge.id.in_(...)` filter when the set is nonempty; the
empty-set case is the same as an always-false membership test, so both
cases are the one `contains` test below.  Pure read: returns rows only. -/
def getAvailableChallenges (db : DB) (uid : Nat) (now : Int) (exclude_ids : List Nat) :
    List Challenge :=
  let all_excluded := completedChallengeIds db uid ++ snoozedChallengeIds db uid now ++ exclude_ids
  sortBy challengeSortKeyLe
    (db.challenges.filter
      (fun c => c.is_active && c.visible_to_students &&
        !(all_excluded.contains c.id) && challengeDateOk c now))

/-- Predicate matching the user's progress row for one challenge. -/
def progressKeyPred (uid cid : Nat) (p : UserChallengeProgress) : Bool :=
  p.user_id == uid && p.challenge_id == cid

/-- Predicate matching an IN_PROGRESS progress row of `uid`. -/
def inProgressPred (uid : Nat) (p : UserChallengeProgress) : Bool :=
  p.user_id == uid && p.status == ChallengeStatus.IN_PROGRESS

/-- The create-or-update block shared by `get_or_assign_active_challenge`
(`challenges/routes.py` lines 66-92), the successor activation of
`complete_objective` (lines 261-286) and of `complete_challenge`
(`students/routes.py` lines 398-424): absent row is created
IN_PROGRESS with `started_at = now`; an existing row is set IN_PROGRESS
and `started_at` is stamped only if unset. -/
def activateChallengeKeepStart (db : DB) (uid cid : Nat) (now : Int) : DB :=
  match db.challenge_progress.find? (progressKeyPred uid cid) with
  | none =>
      { db with challenge_progress := db.challenge_progress ++
          [{ user_id := uid, challenge_id := cid, status := ChallengeStatus.IN_PROGRESS,
             started_at := some now, completed_at := none }] }
  | some _ =>
      let cp :=
        updateFirst (progressKeyPred uid cid)
          (fun p => { p with status := ChallengeStatus.IN_PROGRESS,
                             started_at := (match p.started_at with
                                            | none => some now
                                            | some t => some t) })
          db.challenge_progress
      { db with challenge_progress := cp }

/-- The create-or-update block of `swap_challenge` (`students/routes.py`
lines 557-581) and of the snooze replacement (lines 672-694): unlike
`activateChallengeKeepStart`, an existing row gets
`started_at = datetime.utcnow()` unconditionally. -/
def activateChallengeResetStart (db : DB) (uid cid : Nat) (now : Int) : DB :=
  match db.challenge_progress.find? (progressKeyPred uid cid) with
  | none =>
      { db with challenge_progress := db.challenge_progress ++
          [{ user_id := uid, challenge_id := cid, status := ChallengeStatus.IN_PROGRESS,
             started_at := some now, completed_at := none }] }
  | some _ =>
      let cp :=
        updateFirst (progressKeyPred uid cid)
          (fun p => { p with status := ChallengeStatus.IN_PROGRESS,
                             started_at := some now })
          db.challenge_progress
      { db with challenge_progress := cp }

/-- `challenges/routes.py`, `get_or_assign_active_challenge(db, user_id)`.
Returns the post-commit store, the challenge the route would serve
(`none` models Python `None`) and the progress row. -/
def getOrAssignActiveChallenge (db : DB) (uid : Nat) (now : Int) :
    DB × Option Challenge × Option UserChallengeProgress :=
  match db.challenge_progress.find? (inProgressPred uid) with
  | some prog =>
      (db, db.challenges.find? (fun c => c.id == prog.challenge_id), some prog)
  | none =>
      let completed_ids := completedChallengeIds db uid
      match (sortBy challengeIdLe
              (db.challenges.filter
                (fun c => c.is_active && !(completed_ids.contains c.id)))).head? with
      | none => (db, none, none)
      | some ch =>
          let db1 := activateChallengeKeepStart db uid ch.id now
          (db1, some ch, db1.challenge_progress.find? (progressKeyPred uid ch.id))

/-- First half of `complete_objective` (`challenges/routes.py` lines 194-214):
get-or-create the objective progress row, then stamp it
COMPLETE with `completed_at = now`.  The created row's default status is
overwritten before commit, so the net effect of the create branch is one
appended COMPLETE row. -/
def markObjectiveComplete (db : DB) (uid oid : Nat) (now : Int) : DB :=
  match db.objective_progress.find? (fun p => p.user_id == uid && p.objective_id == oid) with
  | none =>
      { db with objective_progress := db.objective_progress ++
          [{ user_id := uid, objective_id := oid, status := ObjectiveStatus.COMPLETE,
             completed_at := some now }] }
  | some _ =>
      let op :=
        updateFirst (fun p => p.user_id == uid && p.objective_id == oid)
          (fun p => { p with status := ObjectiveStatus.COMPLETE, completed_at := some now })
          db.objective_progress
      { db with objective_progress := op }

/-- The all-required-objectives-complete loop of `complete_objective`
(`challenges/routes.py` lines 218-233): starts at `True`, and any
required objective without a COMPLETE progress row flips it to `False`. -/
def allRequiredObjectivesComplete (db : DB) (uid cid : Nat) : Bool :=
  (db.objectives.filter (fun o => o.challenge_id == cid)).all
    (fun o => !o.is_required ||
      (match db.objective_progress.find?
               (fun p => p.user_id == uid && p.objective_id == o.id) with
       | none => false
       | some p => p.status == ObjectiveStatus.COMPLETE))

/-- The parent-completion block of `complete_objective`
(`challenges/routes.py` lines 236-286): when the user's progress row for
the challenge exists it is stamped COMPLETE; then the link table is
queried for the `ON_COMPLETE` edge and, if present, the linked successor
is activated.  `next_challenge_id` is not consulted on this path. -/
def completeChallengeAndChain (db : DB) (uid cid : Nat) (now : Int) : DB :=
  let db1 :=
    match db.challenge_progress.find? (progressKeyPred uid cid) with
    | none => db
    | some _ =>
        let cp :=
          updateFirst (progressKeyPred uid cid)
            (fun p => { p with status := ChallengeStatus.COMPLETE, completed_at := some now })
            db.challenge_progress
        { db with challenge_progress := cp }
  match db1.challenge_links.find?
          (fun l => l.from_challenge_id == cid && l.condition == "ON_COMPLETE") with
  | none => db1
  | some link => activateChallengeKeepStart db1 uid link.to_challenge_id now

/-- Response-building tail of `complete_objective` (lines 297-336) and of
`get_active_challenge`: for each objective of the served challenge,
create an INCOMPLETE progress row when none exists. -/
def backfillObjectiveProgress (db : DB) (uid cid : Nat) : DB :=
  let op :=
    (sortBy objectiveSortLe (db.objectives.filter (fun o => o.challenge_id == cid))).foldl
      (fun acc o =>
        match acc.find? (fun p => p.user_id == uid && p.objective_id == o.id) with
        | some _ => acc
        | none => acc ++
            [{ user_id := uid, objective_id := o.id, status := ObjectiveStatus.INCOMPLETE,
               completed_at := none }])
      db.objective_progress
  { db with objective_progress := op }

/-- `challenges/routes.py`, route `complete_objective(objective_id)`.
Every `db.commit()` of the source is inside the returned state, so the
state is final even when the trailing lookup raises 404 (the commits
before the raise have already happened). -/
def complete_objective (db : DB) (uid oid : Nat) (now : Int) : DB × Except ApiError Unit :=
  match db.objectives.find? (fun o => o.id == oid) with
  | none => (db, Except.error (ApiError.notFound "Objective not found"))
  | some objective =>
      let db1 := markObjectiveComplete db uid oid now
      let cid := objective.challenge_id
      let db2 :=
        if allRequiredObjectivesComplete db1 uid cid then
          completeChallengeAndChain db1 uid cid now
        else db1
      match getOrAssignActiveChallenge db2 uid now with
      | (db3, none, _) => (db3, Except.error (ApiError.notFound "No active challenges available"))
      | (db3, some ch, _) => (backfillObjectiveProgress db3 uid ch.id, Except.ok ())

/-- `students/routes.py`, route `complete_challenge(challenge_id)`
(lines 348-438).  The streak-encouragement block (lines 390-396) calls
`NotificationService(db)` although `NotificationService` defines no
constructor and all its methods are static, so the call raises
`TypeError` before touching the store and the surrounding
`try/except Exception` swallows it: the block's net effect on the store
is nothing, which is how it is embedded here.  Returns whether a next
challenge was activated. -/
def complete_challenge (db : DB) (uid cid : Nat) (now : Int) : DB × Except ApiError Bool :=
  match db.challenges.find? (fun c => c.id == cid) with
  | none => (db, Except.error (ApiError.notFound "Challenge not found"))
  | some challenge =>
      let db1 :=
        match db.challenge_progress.find? (progressKeyPred uid cid) with
        | none =>
            { db with challenge_progress := db.challenge_progress ++
                [{ user_id := uid, challenge_id := cid, status := ChallengeStatus.COMPLETE,
                   started_at := none, completed_at := some now }] }
        | some _ =>
            let cp :=
              updateFirst (progressKeyPred uid cid)
                (fun p => { p with status := ChallengeStatus.COMPLETE,
                                   completed_at := some now })
                db.challenge_progress
            { db with challenge_progress := cp }
      match challenge.next_challenge_id with
      | none => (db1, Except.ok false)
      | some nid => (activateChallengeKeepStart db1 uid nid now, Except.ok true)

/-- `students/routes.py`, route `add_second_slot` (lines 441-511).
Creates default preferences when absent, returns early when the second
slot is already enabled, otherwise picks the first available challenge
excluding the current IN_PROGRESS one and persists the flag and pointer.
Returns the second-slot challenge id. -/
def add_second_slot (db : DB) (uid : Nat) (now : Int) : DB × Except ApiError (Option Nat) :=
  let db0 : DB :=
    match db.preferences.find? (fun pr => pr.user_id == uid) with
    | some _ => db
    | none =>
        { db with preferences := db.preferences ++
            [{ user_id := uid, second_slot_enabled := false,
               second_slot_challenge_id := none, updated_at := none }] }
  match db0.preferences.find? (fun pr => pr.user_id == uid) with
  | none => (db0, Except.error (ApiError.notFound "unreachable"))
  | some prefs =>
      if prefs.second_slot_enabled then
        (db0, Except.ok prefs.second_slot_challenge_id)
      else
        let exclude_ids :=
          match db0.challenge_progress.find? (inProgressPred uid) with
          | some p => [p.challenge_id]
          | none => []
        match (getAvailableChallenges db0 uid now exclude_ids).head? with
        | none => (db0, Except.error (ApiError.notFound "No available challenges for second slot"))
        | some sc =>
            let prs :=
              updateFirst (fun pr => pr.user_id == uid)
                (fun pr => { pr with second_slot_enabled := true,
                                     second_slot_challenge_id := some sc.id,
                                     updated_at := some now })
                db0.preferences
            ({ db0 with preferences := prs }, Except.ok (some sc.id))

/-- The revert-to-pool block shared by `swap_challenge` (lines 551-552)
and `snooze_challenge` (lines 663-664): the row object fetched as the
current IN_PROGRESS progress is set back to NOT_STARTED with
`started_at = None`. -/
def revertInProgress (db : DB) (uid : Nat) : DB :=
  let cp :=
    updateFirst (inProgressPred uid)
      (fun p => { p with status := ChallengeStatus.NOT_STARTED, started_at := none })
      db.challenge_progress
  { db with challenge_progress := cp }

/-- `students/routes.py`, route `swap_challenge` (lines 514-594): the
available list is computed before the revert and excludes the current
challenge; the current IN_PROGRESS row is reverted to NOT_STARTED with
`started_at = None`; the replacement is assigned with `started_at`
overwritten.  Returns the new challenge id. -/
def swap_challenge (db : DB) (uid : Nat) (now : Int) : DB × Except ApiError Nat :=
  match db.challenge_progress.find? (inProgressPred uid) with
  | none => (db, Except.error (ApiError.notFound "No active challenge to swap"))
  | some current =>
      match (getAvailableChallenges db uid now [current.challenge_id]).head? with
      | none => (db, Except.error (ApiError.notFound "No other challenges available to swap with"))
      | some newc =>
          ((activateChallengeResetStart (revertInProgress db uid) uid newc.id now),
           Except.ok newc.id)

/-- Snooze-row upsert of `snooze_challenge` (lines 633-660): an existing
snooze row for (user, challenge) gets `snoozed_until`/`snoozed_at`
updated; otherwise a new row is created. -/
def snoozeUpsert (db : DB) (uid cid : Nat) (days now : Int) : DB :=
  match db.snoozed.find? (fun s => s.user_id == uid && s.challenge_id == cid) with
  | some _ =>
      let sn :=
        updateFirst (fun s => s.user_id == uid && s.challenge_id == cid)
          (fun s => { s with snoozed_until := now + days * 86400, snoozed_at := now })
          db.snoozed
      { db with snoozed := sn }
  | none =>
      { db with snoozed := db.snoozed ++
          [{ user_id := uid, challenge_id := cid,
             snoozed_at := now, snoozed_until := now + days * 86400 }] }

/-- Replacement-assignment tail of `snooze_challenge` (lines 666-694):
assign the head of the availability list, if any.  The list is read from
`dbq` while the assignment is applied to `db`: the session of `get_db`
is created with `autoflush=False` (`common/dependencies.py` line 24) and
`snooze_challenge` commits only at line 696, so the SELECTs inside
`_get_available_challenges` at line 667 read the store as it stood at
entry — the pending snooze row and the pending revert are invisible to
them — whereas the progress row fetched at lines 673-682 is the
identity-mapped session object that does carry the pending revert. -/
def snoozeReplacement (dbq db : DB) (uid : Nat) (now : Int) : DB :=
  match (getAvailableChallenges dbq uid now []).head? with
  | none => db
  | some newc => activateChallengeResetStart db uid newc.id now

/-- `students/routes.py`, route `snooze_challenge` (lines 597-704).
Rejects `days` outside `[1, 30]` before touching the store; otherwise
upserts the snooze row with `snoozed_until = now + days`, reverts the
current IN_PROGRESS row to NOT_STARTED with `started_at = None`, and
assigns the head of the availability list.  That list is computed
against the store as it stood at entry: the session is `autoflush=False`
and nothing is committed before line 696, so the query at line 667 does
not see the pending snooze row or the pending revert; the just-snoozed
challenge therefore stays in the pool and is re-activated whenever it
sorts first.  Returns `snoozed_until`. -/
def snooze_challenge (db : DB) (uid : Nat) (days : Int) (now : Int) :
    DB × Except ApiError Int :=
  if days < 1 || 30 < days then
    (db, Except.error (ApiError.badRequest "Snooze days must be between 1 and 30"))
  else
    match db.challenge_progress.find? (inProgressPred uid) with
    | none => (db, Except.error (ApiError.notFound "No active challenge to snooze"))
    | some current =>
        (snoozeReplacement db
           (revertInProgress (snoozeUpsert db uid current.challenge_id days now) uid)
           uid now,
         Except.ok (now + days * 86400))

/-- `goals/student_routes.py`, `_get_or_create_goal_progress`. -/
def getOrCreateGoalProgress (db : DB) (uid gid : Nat) : DB × UserGoalProgress :=
  match db.goal_progress.find? (fun p => p.user_id == uid && p.goal_id == gid) with
  | some p => (db, p)
  | none =>
      let p : UserGoalProgress :=
        { user_id := uid, goal_id := gid, status := GoalStatus.NOT_STARTED,
          started_at := none, completed_at := none }
      ({ db with goal_progress := db.goal_progress ++ [p] }, p)

/-- `goals/student_routes.py`, `_auto_chain_next_goal`: follows the
`ON_COMPLETE` GoalLink edge and activates the target goal when it is
active and the user's progress on it is NOT_STARTED. -/
def autoChainNextGoal (db : DB) (uid gid : Nat) (now : Int) : DB :=
  match db.goal_links.find?
          (fun l => l.from_goal_id == gid && l.condition == "ON_COMPLETE") with
  | none => db
  | some link =>
      match db.goals.find? (fun g => g.id == link.to_goal_id) with
      | none => db
      | some g =>
          if g.is_active then
            let pair := getOrCreateGoalProgress db uid g.id
            if pair.2.status == GoalStatus.NOT_STARTED then
              let gp :=
                updateFirst (fun q => q.user_id == uid && q.goal_id == g.id)
                  (fun q => { q with status := GoalStatus.IN_PROGRESS, started_at := some now })
                  pair.1.goal_progress
              { pair.1 with goal_progress := gp }
            else pair.1
          else db

/-- `goals/student_routes.py`, `_check_goal_completion` (lines 102-155):
with zero required steps it returns `False` without touching the store;
otherwise, when every required step has a COMPLETE progress row, the
goal's progress row (when present and not yet COMPLETE) is stamped
COMPLETE and the goal chain is followed; returns whether the goal counts
as complete. -/
def checkGoalCompletion (db : DB) (uid gid : Nat) (now : Int) : DB × Bool :=
  let required_steps := db.goal_steps.filter (fun s => s.goal_id == gid && s.is_required)
  if required_steps.isEmpty then (db, false)
  else if required_steps.all
        (fun s => match db.goal_step_progress.find?
                          (fun p => p.user_id == uid && p.step_id == s.id) with
                  | none => false
                  | some p => p.status == GoalStepStatus.COMPLETE) then
    match db.goal_progress.find? (fun p => p.user_id == uid && p.goal_id == gid) with
    | none => (db, true)
    | some gp =>
        if gp.status != GoalStatus.COMPLETE then
          let gl :=
            updateFirst (fun p => p.user_id == uid && p.goal_id == gid)
              (fun p => { p with status := GoalStatus.COMPLETE, completed_at := some now })
              db.goal_progress
          (autoChainNextGoal { db with goal_progress := gl } uid gid now, true)
        else (db, true)
  else (db, false)

/-- `goals/student_routes.py`, route `complete_goal_step(step_id)`
(lines 274-322): stamps the step progress COMPLETE with
`completed_at = now` (creating the row when absent), then runs the goal
completion check.  Returns `goal_complete`. -/
def complete_goal_step (db : DB) (uid sid : Nat) (now : Int) : DB × Except ApiError Bool :=
  match db.goal_steps.find? (fun s => s.id == sid) with
  | none => (db, Except.error (ApiError.notFound "Goal step not found"))
  | some step =>
      let db1 : DB :=
        match db.goal_step_progress.find? (fun p => p.user_id == uid && p.step_id == sid) with
        | none =>
            { db with goal_step_progress := db.goal_step_progress ++
                [{ user_id := uid, step_id := sid, status := GoalStepStatus.COMPLETE,
                   completed_at := some now }] }
        | some _ =>
            let sp :=
              updateFirst (fun p => p.user_id == uid && p.step_id == sid)
                (fun p => { p with status := GoalStepStatus.COMPLETE, completed_at := some now })
                db.goal_step_progress
            { db with goal_step_progress := sp }
      let pair := checkGoalCompletion db1 uid step.goal_id now
      (pair.1, Except.ok pair.2)

/-- `(a - b).days` for two timestamps: Python `timedelta.days` floors, so
it is floor division of the second difference by 86400. -/
def daysBetween (a b : Int) : Int :=
  (a - b).fdiv 86400

/-- The three reminder windows of `generate_deadline_reminders`
(`notifications/service.py` lines 70-74) with the `"{title}"`
placeholder of each template already substituted. -/
def deadlineWindows : List (Int × (String → String) × (String → String)) :=
  [ (7, fun t => "Upcoming: " ++ t,
        fun t => "Your \x27" ++ t ++ "\x27 challenge is due in 7 days. Stay ahead!"),
    (3, fun t => "Due Soon: " ++ t,
        fun t => "Your \x27" ++ t ++ "\x27 challenge is due in 3 days. You\x27ve got this!"),
    (1, fun t => "Due Tomorrow: " ++ t,
        fun t => "\x27" ++ t ++ "\x27 is due tomorrow. One final push!") ]

/-- The candidate query of `generate_deadline_reminders`
(`notifications/service.py` lines 40-60): active, student-visible
challenges with a due date whose progress row for the user is absent,
NOT_STARTED or IN_PROGRESS (outer join; at most one row per unique
constraint, so `find?` models it). -/
def activeDeadlineChallenges (db : DB) (uid : Nat) : List Challenge :=
  db.challenges.filter
    (fun c => c.is_active && c.visible_to_students && c.due_date.isSome &&
      (match db.challenge_progress.find? (fun p => p.challenge_id == c.id && p.user_id == uid) with
       | none => true
       | some p => p.status == ChallengeStatus.NOT_STARTED ||
                   p.status == ChallengeStatus.IN_PROGRESS))

/-- The dedup key `f"deadline:challenge:{challenge.id}:{days_before}d"`. -/
def deadlineKey (cid : Nat) (wd : Int) : String :=
  s!"deadline:challenge:{cid}:{wd}d"

/-- The duplicate-check query of the deadline reminders (lines 80-84):
same user, same dedup key, scheduled within the last day. -/
def deadlineDedupPred (uid cid : Nat) (wd : Int) (now : Int) (n : Notification) : Bool :=
  n.user_id == uid && n.dedup_key == some (deadlineKey cid wd) &&
    now - 86400 ≤ n.scheduled_for

/-- The Notification row built for one (challenge, window) pair
(lines 87-95). -/
def deadlineNotification (uid : Nat) (c : Challenge)
    (w : Int × (String → String) × (String → String)) (now : Int) : Notification :=
  { user_id := uid, type := NotificationType.DEADLINE,
    title := w.2.1 c.title, body := w.2.2 c.title,
    related_challenge_id := some c.id, scheduled_for := now,
    dedup_key := some (deadlineKey c.id w.1), read_at := none, dismissed_at := none }

/-- `notifications/service.py`, `generate_deadline_reminders` (lines
29-98).  `days_until_due` is the integer `timedelta.days`, so the float
tolerance `abs(days_until_due - days_before) < 0.5` holds exactly when
the two integers are equal, which is how the window test is embedded.
A candidate is suppressed when a notification with the same dedup key
was scheduled within the last day.  Pure: returns the new rows without
persisting them. -/
def generateDeadlineReminders (db : DB) (uid : Nat) (now : Int) : List Notification :=
  (activeDeadlineChallenges db uid).flatMap
    (fun c =>
      match c.due_date with
      | none => []
      | some due =>
          let d := daysBetween due now
          deadlineWindows.filterMap
            (fun w =>
              if d == w.1 then
                if (db.notifications.find? (deadlineDedupPred uid c.id w.1 now)).isSome then
                  none
                else
                  some (deadlineNotification uid c w now)
              else none))

/-- The fixed message pool of the inactivity nudge
(`notifications/service.py` lines 151-155). -/
def nudgeMessages : List (String × String) :=
  [ ("Quick win today",
     "You\x27re one step away from completing your next milestone. Let\x27s finish strong!"),
    ("Ready to continue?",
     "Your progress is waiting! One small task today keeps the momentum going."),
    ("Let\x27s keep moving",
     "Small steps lead to big wins. What can you tackle today?") ]

/-- The welcome nudge built by `generate_inactivity_nudge` when the user
has no completion history (lines 131-141). -/
def welcomeNudge (uid : Nat) (now : Int) : Notification :=
  { user_id := uid, type := NotificationType.NUDGE,
    title := "Ready to get started?",
    body := "Quick win today: check out your first mission and take one small step forward!",
    related_challenge_id := none, scheduled_for := now,
    dedup_key := some s!"nudge:inactivity:{uid}:welcome",
    read_at := none, dismissed_at := none }

/-- The sent-a-nudge-today check of `generate_inactivity_nudge`
(lines 113-117): any NUDGE row of the user scheduled within the last
day. -/
def nudgeTodayPred (uid : Nat) (now : Int) (n : Notification) : Bool :=
  n.user_id == uid && n.type == NotificationType.NUDGE && now - 86400 ≤ n.scheduled_for

/-- The user's objective-completion timestamps; `last_activity` is their
maximum (`func.max` returns NULL when every value is NULL). -/
def userCompletionTimes (db : DB) (uid : Nat) : List Int :=
  (db.objective_progress.filter (fun p => p.user_id == uid)).filterMap
    (fun p => p.completed_at)

/-- `notifications/service.py`, `generate_inactivity_nudge` (lines
101-167) with the route's default `inactive_days = 2` passed explicitly.
`pick` stands for the draw of `random.choice` (an index into the message
pool); the calendar date inside the daily dedup key is rendered as the
day index `now.fdiv 86400`.  Suppression: any NUDGE row of the user
scheduled within the last day.  `last_activity` is the SQL `max` of the
user's `completed_at` column, `none` when every value is NULL. -/
def generateInactivityNudge (db : DB) (uid : Nat) (now : Int) (pick : Nat)
    (inactive_days : Int) : Option Notification :=
  if (db.notifications.find? (nudgeTodayPred uid now)).isSome then
    none
  else
    match (userCompletionTimes db uid).max? with
    | none => some (welcomeNudge uid now)
    | some last =>
        if inactive_days ≤ daysBetween now last then
          let msg := nudgeMessages.getD (pick % nudgeMessages.length) ("", "")
          let day := now.fdiv 86400
          some { user_id := uid, type := NotificationType.NUDGE,
                 title := msg.1, body := msg.2,
                 related_challenge_id := none, scheduled_for := now,
                 dedup_key := some s!"nudge:inactivity:{uid}:{day}",
                 read_at := none, dismissed_at := none }
        else none

/-- `notifications/service.py`, `generate_streak_encouragement` (lines
169-231): suppressed when a STREAK row of the user was scheduled within
the last day; otherwise counts distinct completion days in the trailing
7 days and fires when that count is at least 2. -/
def generateStreakEncouragement (db : DB) (uid cid : Nat) (now : Int) : Option Notification :=
  if (db.notifications.find?
        (fun n => n.user_id == uid && n.type == NotificationType.STREAK &&
                  now - 86400 ≤ n.scheduled_for)).isSome then
    none
  else
    let recent_days :=
      ((db.objective_progress.filter
          (fun p => p.user_id == uid &&
            (match p.completed_at with
             | none => false
             | some t => now - 7 * 86400 ≤ t))).filterMap
        (fun p => p.completed_at.map (fun t => t.fdiv 86400))).dedup
    let unique_days := recent_days.length
    if 2 ≤ unique_days then
      let day := now.fdiv 86400
      let title := if unique_days == 2 then "Two days strong!" else s!"{unique_days}-day streak!"
      let body :=
        if unique_days == 2 then
          "Keep it up! Complete today\x27s mission to hit a 3-day streak."
        else
          s!"Amazing consistency! One more task today keeps your {unique_days}-day streak alive."
      some { user_id := uid, type := NotificationType.STREAK,
             title := title, body := body,
             related_challenge_id := some cid, scheduled_for := now,
             dedup_key := some s!"streak:encourage:{uid}:{day}",
             read_at := none, dismissed_at := none }
    else none

/-- `notifications/routes.py`, route `generate_notifications` (lines
122-151): collects the deadline reminders and the optional inactivity
nudge, persists them with `create_notifications`, and returns the count
created. -/
def generate_notifications (db : DB) (uid : Nat) (now : Int) (pick : Nat) : DB × Nat :=
  let dl := generateDeadlineReminders db uid now
  let ns :=
    match generateInactivityNudge db uid now pick 2 with
    | some n => dl ++ [n]
    | none => dl
  ({ db with notifications := db.notifications ++ ns }, ns.length)

/-- The empty store. -/
def emptyDB : DB :=
  { challenges := [], objectives := [], challenge_links := [], challenge_progress := [],
    objective_progress := [], snoozed := [], preferences := [], goals := [],
    goal_steps := [], goal_links := [], goal_progress := [], goal_step_progress := [],
    notifications := [] }

/-- A challenge row with the model's column defaults
(`is_active = visible_to_students = True`, `sort_order = 0`,
`points = 10`, nullable columns NULL). -/
def mkChallenge (id : Nat) : Challenge :=
  { id := id, title := "", is_active := true, goal_id := none, next_challenge_id := none,
    sort_order := 0, visible_to_students := true, points := 10, due_date := none,
    start_date := none, expires_at := none }

/-- Store for the C1 counterexample: user 1 is working on challenge 1
while challenge 2 chains to challenge 3 via `next_challenge_id`. -/
def exDB1 : DB :=
  { emptyDB with
    challenges := [mkChallenge 1, { mkChallenge 2 with next_challenge_id := some 3 },
                   mkChallenge 3],
    challenge_progress := [{ user_id := 1, challenge_id := 1,
                             status := ChallengeStatus.IN_PROGRESS,
                             started_at := some 10, completed_at := none }] }

/-- Store for the C2 counterexample: challenge 1 has a single
non-required objective 10 and user 1 has it IN_PROGRESS; challenge 2
exists so the trailing lookup of `complete_objective` succeeds. -/
def exDB2 : DB :=
  { emptyDB with
    challenges := [mkChallenge 1, mkChallenge 2],
    objectives := [{ id := 10, challenge_id := 1, points := 0, sort_order := 0,
                     is_required := false }],
    challenge_progress := [{ user_id := 1, challenge_id := 1,
                             status := ChallengeStatus.IN_PROGRESS,
                             started_at := some 10, completed_at := none }] }

/-- Store for the C3 counterexample: challenge 5 carries
`next_challenge_id = 7` but no `ON_COMPLETE` link; challenge 6 is another
active challenge with a smaller id than 7. -/
def exDB3 : DB :=
  { emptyDB with
    challenges := [{ mkChallenge 5 with next_challenge_id := some 7 },
                   mkChallenge 6, mkChallenge 7],
    objectives := [{ id := 50, challenge_id := 5, points := 0, sort_order := 0,
                     is_required := true }],
    challenge_progress := [{ user_id := 1, challenge_id := 5,
                             status := ChallengeStatus.IN_PROGRESS,
                             started_at := some 10, completed_at := none }] }

/-- `exDB3` extended with the `ON_COMPLETE` link 5 -> 7, used to show
the link path of successor activation. -/
def exDB3b : DB :=
  { exDB3 with
    challenge_links := [{ from_challenge_id := 5, to_challenge_id := 7,
                          condition := "ON_COMPLETE" }] }

/-- Store for the C4 counterexample: user 1 is on challenge 1 and holds a
NOT_STARTED row for challenge 2 whose `started_at` was already stamped
(at 5) by an earlier assignment. -/
def exDB4 : DB :=
  { emptyDB with
    challenges := [mkChallenge 1, mkChallenge 2],
    challenge_progress :=
      [{ user_id := 1, challenge_id := 1, status := ChallengeStatus.IN_PROGRESS,
         started_at := some 10, completed_at := none },
       { user_id := 1, challenge_id := 2, status := ChallengeStatus.NOT_STARTED,
         started_at := some 5, completed_at := none }] }

/-- Variant of `exDB8` with one required goal step 77 on goal 3, used to
exercise the goal path of the complete-child operation. -/
def exDB8b : DB :=
  { emptyDB with
    goal_steps := [{ id := 77, goal_id := 3, title := "", points := 0, sort_order := 0,
                     is_required := true }] }

/-- Store for the C8 counterexample: challenge 1 has one required
objective 10; challenge 2 keeps the trailing lookup of
`complete_objective` from raising. -/
def exDB8 : DB :=
  { emptyDB with
    challenges := [mkChallenge 1, mkChallenge 2],
    objectives := [{ id := 10, challenge_id := 1, points := 0, sort_order := 0,
                     is_required := true }],
    challenge_progress := [{ user_id := 1, challenge_id := 1,
                             status := ChallengeStatus.IN_PROGRESS,
                             started_at := some 10, completed_at := none }] }

/-- Store holding one stale welcome nudge (scheduled at time 0) for
user 1, used to show a second welcome nudge fires days later. -/
def exDB9b : DB :=
  { emptyDB with notifications := [welcomeNudge 1 0] }

/-- Count of IN_PROGRESS challenge-progress rows of one user: the
"Today's Task" invariant asks this to stay at most 1. -/
def inProgressCount (db : DB) (uid : Nat) : Nat :=
  (db.challenge_progress.filter (inProgressPred uid)).length

/-- Key of a challenge-progress row for the per-(user, challenge)
uniqueness invariant. -/
def chKey (p : UserChallengeProgress) : Nat × Nat :=
  (p.user_id, p.challenge_id)

/-- At most one challenge-progress row per (user, challenge): the
`uq_user_challenge` unique constraint. -/
def progressKeysNodup (l : List UserChallengeProgress) : Prop :=
  (l.map chKey).Nodup

instance (l : List UserChallengeProgress) : Decidable (progressKeysNodup l) := by
  unfold progressKeysNodup
  infer_instance

/-- Spec-side inclusion rule of the eligibility filter, transcribed from
the specification's words (§4.1), to be compared with
`getAvailableChallenges` which is translated from the code: active,
visible to students, no COMPLETE progress row of the user, no snooze row
still active at `now`, and inside the date window. -/
def eligibleSpec (db : DB) (uid : Nat) (now : Int) (c : Challenge) : Prop :=
  c.is_active = true ∧ c.visible_to_students = true ∧
  (∀ p ∈ db.challenge_progress, p.user_id = uid → p.challenge_id = c.id →
      p.status ≠ ChallengeStatus.COMPLETE) ∧
  (∀ s ∈ db.snoozed, s.user_id = uid → s.challenge_id = c.id → s.snoozed_until ≤ now) ∧
  (c.start_date = none ∨ ∃ d, c.start_date = some d ∧ d ≤ now) ∧
  (c.expires_at = none ∨ ∃ d, c.expires_at = some d ∧ now < d)

/-! Generic lemmas about the list combinators used to model the ORM. -/

theorem mem_insertBy {le : α → α → Bool} {x y : α} {l : List α} :
    y ∈ insertBy le x l ↔ y = x ∨ y ∈ l := by
  induction l with
  | nil => simp [insertBy]
  | cons a l ih =>
      by_cases h : le x a = true
      · simp [insertBy, h]
      · simp only [insertBy, h]
        simp [ih]
        tauto

theorem mem_sortBy {le : α → α → Bool} {y : α} {l : List α} :
    y ∈ sortBy le l ↔ y ∈ l := by
  induction l with
  | nil => simp [sortBy]
  | cons a l ih =>
      simp only [sortBy, mem_insertBy, ih, List.mem_cons]

theorem pairwise_insertBy {le : α → α → Bool}
    (htot : ∀ a b, le a b = true ∨ le b a = true)
    (htrans : ∀ a b c, le a b = true → le b c = true → le a c = true)
    {x : α} {l : List α}
    (h : l.Pairwise (fun a b => le a b = true)) :
    (insertBy le x l).Pairwise (fun a b => le a b = true) := by
  induction l with
  | nil => simp [insertBy]
  | cons a l ih =>
      rcases List.pairwise_cons.mp h with ⟨ha, hl⟩
      by_cases hxa : le x a = true
      · simp only [insertBy, hxa, if_true]
        refine List.pairwise_cons.mpr ⟨?_, h⟩
        intro b hb
        rcases List.mem_cons.mp hb with rfl | hb
        · exact hxa
        · exact htrans x a b hxa (ha b hb)
      · simp only [insertBy, hxa, if_false]
        refine List.pairwise_cons.mpr ⟨?_, ih hl⟩
        intro b hb
        rcases mem_insertBy.mp hb with rfl | hb
        · rcases htot b a with hc | hc
          · exact absurd hc hxa
          · exact hc
        · exact ha b hb

theorem pairwise_sortBy {le : α → α → Bool}
    (htot : ∀ a b, le a b = true ∨ le b a = true)
    (htrans : ∀ a b c, le a b = true → le b c = true → le a c = true)
    (l : List α) :
    (sortBy le l).Pairwise (fun a b => le a b = true) := by
  induction l with
  | nil => simp [sortBy]
  | cons a l ih => exact pairwise_insertBy htot htrans ih

theorem updateFirst_map_eq {p : α → Bool} {f : α → α} {g : α → β}
    (hf : ∀ a, p a = true → g (f a) = g a) (l : List α) :
    (updateFirst p f l).map g = l.map g := by
  induction l with
  | nil => rfl
  | cons a l ih =>
      by_cases h : p a = true
      · simp [updateFirst, h, hf a h]
      · simp [updateFirst, h, ih]

theorem filter_updateFirst_tail {p : α → Bool} {f : α → α}
    (hf : ∀ a, p a = true → p (f a) = false) (l : List α) :
    (updateFirst p f l).filter p = (l.filter p).tail := by
  induction l with
  | nil => rfl
  | cons a l ih =>
      by_cases h : p a = true
      · simp [updateFirst, h, List.filter_cons, hf a h]
      · simp [updateFirst, h, List.filter_cons, ih]

theorem filter_updateFirst_of_disjoint {p q : α → Bool} {f : α → α}
    (h1 : ∀ a, p a = true → q a = false) (h2 : ∀ a, p a = true → q (f a) = false)
    (l : List α) :
    (updateFirst p f l).filter q = l.filter q := by
  induction l with
  | nil => rfl
  | cons a l ih =>
      by_cases h : p a = true
      · simp [updateFirst, h, List.filter_cons, h1 a h, h2 a h]
      · simp [updateFirst, h, List.filter_cons, ih]

theorem length_filter_updateFirst_le {p q : α → Bool} {f : α → α} (l : List α) :
    ((updateFirst p f l).filter q).length ≤ (l.filter q).length + 1 := by
  induction l with
  | nil => simp [updateFirst]
  | cons a l ih =>
      by_cases h : p a = true
      · by_cases hq : q (f a) = true <;> by_cases hqa : q a = true <;>
          simp [updateFirst, h, List.filter_cons, hq, hqa] <;> omega
      · by_cases hqa : q a = true <;> simp [updateFirst, h, List.filter_cons, hqa] <;> omega

theorem find?_updateFirst_eq {p : α → Bool} {f : α → α} {l : List α} {x : α}
    (h : l.find? p = some x) (hf : p (f x) = true) :
    (updateFirst p f l).find? p = some (f x) := by
  induction l with
  | nil => simp at h
  | cons a l ih =>
      by_cases hp : p a = true
      · rw [List.find?_cons_of_pos _ hp, Option.some.injEq] at h
        subst h
        simp only [updateFirst, if_pos hp]
        exact List.find?_cons_of_pos _ hf
      · rw [List.find?_cons_of_neg _ hp] at h
        simp only [updateFirst, if_neg hp]
        rw [List.find?_cons_of_neg _ hp]
        exact ih h

theorem find?_updateFirst_of_none {p q : α → Bool} {f : α → α} {l : List α} {x : α}
    (hq : l.find? q = none) (hp : l.find? p = some x) (hfq : q (f x) = true) :
    (updateFirst p f l).find? q = some (f x) := by
  induction l with
  | nil => simp at hp
  | cons a l ih =>
      have hqa : ¬ q a = true := by
        have := List.find?_eq_none.mp hq a (by simp)
        simpa using this
      rw [List.find?_cons_of_neg _ hqa] at hq
      by_cases hpa : p a = true
      · rw [List.find?_cons_of_pos _ hpa, Option.some.injEq] at hp
        subst hp
        simp only [updateFirst, if_pos hpa]
        exact List.find?_cons_of_pos _ hfq
      · rw [List.find?_cons_of_neg _ hpa] at hp
        simp only [updateFirst, if_neg hpa]
        rw [List.find?_cons_of_neg _ hqa]
        exact ih hq hp

theorem mem_updateFirst_of_find? {p : α → Bool} {f : α → α} {l : List α} {x : α}
    (h : l.find? p = some x) : f x ∈ updateFirst p f l := by
  induction l with
  | nil => simp at h
  | cons a l ih =>
      by_cases hp : p a = true
      · rw [List.find?_cons_of_pos _ hp, Option.some.injEq] at h
        subst h
        simp [updateFirst, hp]
      · rw [List.find?_cons_of_neg _ hp] at h
        simp only [updateFirst, if_neg hp]
        exact List.mem_cons_of_mem a (ih h)

theorem filter_eq_nil_of_find?_none {p : α → Bool} {l : List α}
    (h : l.find? p = none) : l.filter p = [] := by
  rw [List.filter_eq_nil_iff]
  intro a ha
  have := List.find?_eq_none.mp h a ha
  simpa using this

/-! Lemmas about the progress-row key invariants. -/

theorem progressKeyPred_iff {uid cid : Nat} {p : UserChallengeProgress} :
    progressKeyPred uid cid p = true ↔ p.user_id = uid ∧ p.challenge_id = cid := by
  simp [progressKeyPred]

theorem inProgressPred_iff {uid : Nat} {p : UserChallengeProgress} :
    inProgressPred uid p = true ↔
      p.user_id = uid ∧ p.status = ChallengeStatus.IN_PROGRESS := by
  simp [inProgressPred]

theorem progressKeysNodup_updateFirst {q : UserChallengeProgress → Bool}
    {f : UserChallengeProgress → UserChallengeProgress} {l : List UserChallengeProgress}
    (hf : ∀ a, chKey (f a) = chKey a) (hn : progressKeysNodup l) :
    progressKeysNodup (updateFirst q f l) := by
  unfold progressKeysNodup at *
  rw [updateFirst_map_eq (fun a _ => hf a)]
  exact hn

theorem progressKeysNodup_concat {l : List UserChallengeProgress} {uid cid : Nat}
    {x : UserChallengeProgress} (hx : chKey x = (uid, cid))
    (h : l.find? (progressKeyPred uid cid) = none)
    (hn : progressKeysNodup l) : progressKeysNodup (l ++ [x]) := by
  unfold progressKeysNodup at *
  rw [List.map_append]
  refine List.Nodup.append hn (List.nodup_singleton _) ?_
  intro a ha hb
  rcases List.mem_map.mp ha with ⟨b, hb', rfl⟩
  have hax : chKey b = chKey x := by simpa using hb
  have hkey : progressKeyPred uid cid b = true := by
    rw [progressKeyPred_iff]
    have : chKey b = (uid, cid) := by rw [hax, hx]
    exact ⟨congrArg Prod.fst this, congrArg Prod.snd this⟩
  exact List.find?_eq_none.mp h b hb' hkey

theorem nodupKeys_activateKeepStart (db : DB) (uid cid : Nat) (now : Int)
    (hn : progressKeysNodup db.challenge_progress) :
    progressKeysNodup (activateChallengeKeepStart db uid cid now).challenge_progress := by
  unfold activateChallengeKeepStart
  cases h : db.challenge_progress.find? (progressKeyPred uid cid) with
  | none => exact progressKeysNodup_concat rfl h hn
  | some x => exact progressKeysNodup_updateFirst (fun a => rfl) hn

theorem nodupKeys_activateResetStart (db : DB) (uid cid : Nat) (now : Int)
    (hn : progressKeysNodup db.challenge_progress) :
    progressKeysNodup (activateChallengeResetStart db uid cid now).challenge_progress := by
  unfold activateChallengeResetStart
  cases h : db.challenge_progress.find? (progressKeyPred uid cid) with
  | none => exact progressKeysNodup_concat rfl h hn
  | some x => exact progressKeysNodup_updateFirst (fun a => rfl) hn

theorem activateKeepStart_notifications (db : DB) (uid cid : Nat) (now : Int) :
    (activateChallengeKeepStart db uid cid now).notifications = db.notifications := by
  unfold activateChallengeKeepStart
  cases db.challenge_progress.find? (progressKeyPred uid cid) <;> rfl

theorem notExcluded_iff {db : DB} {uid : Nat} {now : Int} {cid : Nat} :
    ((completedChallengeIds db uid ++ snoozedChallengeIds db uid now ++
        ([] : List Nat)).contains cid = false) ↔
    ((∀ p ∈ db.challenge_progress, p.user_id = uid → p.challenge_id = cid →
        p.status ≠ ChallengeStatus.COMPLETE) ∧
     (∀ s ∈ db.snoozed, s.user_id = uid → s.challenge_id = cid →
        s.snoozed_until ≤ now)) := by
  simp [completedChallengeIds, snoozedChallengeIds, List.mem_filter, not_or]
  constructor
  · rintro ⟨h1, h2⟩
    refine ⟨fun p hp hu hc hs => h1 p hp hu hs hc, fun s hs hu hc => ?_⟩
    by_contra hlt
    exact h2 s hs hu (lt_of_not_le hlt) hc
  · rintro ⟨h1, h2⟩
    exact ⟨fun p hp hu hs hc => h1 p hp hu hc hs,
           fun s hs hu hlt hc => absurd (h2 s hs hu hc) (not_le.mpr hlt)⟩

theorem challengeDateOk_iff {c : Challenge} {now : Int} :
    challengeDateOk c now = true ↔
      ((c.start_date = none ∨ ∃ d, c.start_date = some d ∧ d ≤ now) ∧
       (c.expires_at = none ∨ ∃ d, c.expires_at = some d ∧ now < d)) := by
  unfold challengeDateOk
  cases c.start_date <;> cases c.expires_at <;> simp

theorem mem_getAvailable_iff {db : DB} {uid : Nat} {now : Int} {c : Challenge} :
    c ∈ getAvailableChallenges db uid now [] ↔
      c ∈ db.challenges ∧ eligibleSpec db uid now c := by
  unfold getAvailableChallenges eligibleSpec
  rw [mem_sortBy, List.mem_filter]
  simp only [Bool.and_eq_true, Bool.not_eq_true']
  rw [notExcluded_iff, challengeDateOk_iff]
  tauto

theorem challengeSortKeyLe_total (a b : Challenge) :
    challengeSortKeyLe a b = true ∨ challengeSortKeyLe b a = true := by
  simp [challengeSortKeyLe]
  omega

theorem challengeSortKeyLe_trans (a b c : Challenge)
    (h1 : challengeSortKeyLe a b = true) (h2 : challengeSortKeyLe b c = true) :
    challengeSortKeyLe a c = true := by
  simp [challengeSortKeyLe] at *
  omega

/-- Claim C5: `_get_available_challenges` returns exactly the challenges
that are active, visible to students, without a COMPLETE progress row of
the user, without a snooze row still active at `now`, and inside the
date window (`eligibleSpec`, transcribed from the spec's words), ordered
by `(sort_order ASC, id ASC)`.  The embedded filter performs no writes
by construction (it is a function of the store returning rows only),
matching the source, which only issues SELECT queries. -/
theorem C5_eligibility_filter_correct (db : DB) (uid : Nat) (now : Int) :
    (∀ c, c ∈ getAvailableChallenges db uid now [] ↔
        c ∈ db.challenges ∧ eligibleSpec db uid now c) ∧
    (getAvailableChallenges db uid now []).Pairwise
      (fun a b => challengeSortKeyLe a b = true) := by
  refine ⟨fun c => mem_getAvailable_iff, ?_⟩
  exact pairwise_sortBy challengeSortKeyLe_total challengeSortKeyLe_trans _

/-- Claim C10: for every user and challenge id, `complete_challenge`
never persists a streak Notification row.  In the source the block
`NotificationService(db).generate_streak_encouragement(user_id, challenge_id)`
always raises (`NotificationService` takes no constructor argument, and
the static method would in any case receive the session in place of its
`db` parameter), the `except` swallows the exception, and no other part
of the endpoint writes to the notifications table, so the table is
unchanged by this endpoint. -/
theorem C10_complete_challenge_preserves_notifications (db : DB) (uid cid : Nat) (now : Int) :
    (complete_challenge db uid cid now).1.notifications = db.notifications := by
  unfold complete_challenge
  split
  · rfl
  · split
    · split
      · exact rfl
      · show (activateChallengeKeepStart _ uid _ now).notifications = db.notifications
        rw [activateKeepStart_notifications]
    · split
      · exact rfl
      · show (activateChallengeKeepStart _ uid _ now).notifications = db.notifications
        rw [activateKeepStart_notifications]

theorem activateKeepStart_objective_progress (db : DB) (uid cid : Nat) (now : Int) :
    (activateChallengeKeepStart db uid cid now).objective_progress = db.objective_progress := by
  unfold activateChallengeKeepStart
  cases db.challenge_progress.find? (progressKeyPred uid cid) <;> rfl

theorem completeChallengeAndChain_objective_progress (db : DB) (uid cid : Nat) (now : Int) :
    (completeChallengeAndChain db uid cid now).objective_progress = db.objective_progress := by
  unfold completeChallengeAndChain
  repeat' (split <;> try dsimp only)
  all_goals first
    | rfl
    | rw [activateKeepStart_objective_progress]

theorem getOrAssign_objective_progress (db : DB) (uid : Nat) (now : Int) :
    (getOrAssignActiveChallenge db uid now).1.objective_progress = db.objective_progress := by
  unfold getOrAssignActiveChallenge
  repeat' (split <;> try dsimp only)
  all_goals first
    | rfl
    | rw [activateKeepStart_objective_progress]

theorem getOrCreateGoalProgress_step (db : DB) (uid gid : Nat) :
    (getOrCreateGoalProgress db uid gid).1.goal_step_progress = db.goal_step_progress := by
  unfold getOrCreateGoalProgress
  split <;> rfl

theorem autoChainNextGoal_step (db : DB) (uid gid : Nat) (now : Int) :
    (autoChainNextGoal db uid gid now).goal_step_progress = db.goal_step_progress := by
  unfold autoChainNextGoal
  repeat' (split <;> try dsimp only)
  all_goals first
    | rfl
    | rw [getOrCreateGoalProgress_step]

theorem checkGoalCompletion_step (db : DB) (uid gid : Nat) (now : Int) :
    (checkGoalCompletion db uid gid now).1.goal_step_progress = db.goal_step_progress := by
  unfold checkGoalCompletion
  repeat' (split <;> try dsimp only)
  all_goals first
    | rfl
    | rw [autoChainNextGoal_step]

theorem mem_backfill (db : DB) (uid cid : Nat) {x : UserObjectiveProgress}
    (hx : x ∈ db.objective_progress) :
    x ∈ (backfillObjectiveProgress db uid cid).objective_progress := by
  unfold backfillObjectiveProgress
  suffices h : ∀ (l : List Objective) (acc : List UserObjectiveProgress), x ∈ acc →
      x ∈ l.foldl
        (fun acc o =>
          match acc.find? (fun p => p.user_id == uid && p.objective_id == o.id) with
          | some _ => acc
          | none => acc ++
              [{ user_id := uid, objective_id := o.id, status := ObjectiveStatus.INCOMPLETE,
                 completed_at := none }])
        acc by
    exact h _ _ hx
  intro l
  induction l with
  | nil =>
      intro acc h
      simpa using h
  | cons o l ih =>
      intro acc h
      simp only [List.foldl_cons]
      apply ih
      cases acc.find? (fun p => p.user_id == uid && p.objective_id == o.id) with
      | none => exact List.mem_append_left _ h
      | some y => exact h

theorem markObjectiveComplete_row (db : DB) (uid oid : Nat) (now : Int) :
    ∃ p ∈ (markObjectiveComplete db uid oid now).objective_progress,
      p.user_id = uid ∧ p.objective_id = oid ∧ p.status = ObjectiveStatus.COMPLETE ∧
      p.completed_at = some now := by
  unfold markObjectiveComplete
  cases h : db.objective_progress.find? (fun p => p.user_id == uid && p.objective_id == oid) with
  | none =>
      refine ⟨{ user_id := uid, objective_id := oid, status := ObjectiveStatus.COMPLETE,
                completed_at := some now }, ?_, rfl, rfl, rfl, rfl⟩
      simp
  | some x =>
      have hx := List.find?_some h
      simp only [Bool.and_eq_true, beq_iff_eq] at hx
      exact ⟨{ x with status := ObjectiveStatus.COMPLETE, completed_at := some now },
             mem_updateFirst_of_find? h, hx.1, hx.2, rfl, rfl⟩

theorem complete_objective_preserves_marked (db : DB) (uid oid : Nat) (now : Int)
    {obj : Objective} (hobj : db.objectives.find? (fun o => o.id == oid) = some obj)
    {x : UserObjectiveProgress}
    (hx : x ∈ (markObjectiveComplete db uid oid now).objective_progress) :
    x ∈ (complete_objective db uid oid now).1.objective_progress := by
  unfold complete_objective
  rw [hobj]
  dsimp only
  have h2 : (if allRequiredObjectivesComplete (markObjectiveComplete db uid oid now) uid
                 obj.challenge_id then
               completeChallengeAndChain (markObjectiveComplete db uid oid now) uid
                 obj.challenge_id now
             else markObjectiveComplete db uid oid now).objective_progress =
      (markObjectiveComplete db uid oid now).objective_progress := by
    split
    · exact completeChallengeAndChain_objective_progress _ uid _ now
    · rfl
  cases hga : getOrAssignActiveChallenge
      (if allRequiredObjectivesComplete (markObjectiveComplete db uid oid now) uid
           obj.challenge_id then
         completeChallengeAndChain (markObjectiveComplete db uid oid now) uid
           obj.challenge_id now
       else markObjectiveComplete db uid oid now) uid now with
  | mk db3 r =>
      have h3 : db3.objective_progress =
          (markObjectiveComplete db uid oid now).objective_progress := by
        have hfr := getOrAssign_objective_progress
          (if allRequiredObjectivesComplete (markObjectiveComplete db uid oid now) uid
               obj.challenge_id then
             completeChallengeAndChain (markObjectiveComplete db uid oid now) uid
               obj.challenge_id now
           else markObjectiveComplete db uid oid now) uid now
        rw [hga] at hfr
        rw [← h2]
        exact hfr
      cases r with
      | mk c pr =>
          cases c with
          | none =>
              dsimp only
              rw [h3]
              exact hx
          | some ch =>
              dsimp only
              apply mem_backfill
              rw [h3]
              exact hx

theorem complete_goal_step_row (db : DB) (uid sid : Nat) (now : Int)
    {step : GoalStep} (hstep : db.goal_steps.find? (fun s => s.id == sid) = some step) :
    (∃ b, (complete_goal_step db uid sid now).2 = Except.ok b) ∧
    ∃ p ∈ (complete_goal_step db uid sid now).1.goal_step_progress,
      p.user_id = uid ∧ p.step_id = sid ∧ p.status = GoalStepStatus.COMPLETE ∧
      p.completed_at = some now := by
  unfold complete_goal_step
  rw [hstep]
  dsimp only
  constructor
  · exact ⟨_, rfl⟩
  · rw [checkGoalCompletion_step]
    cases h : db.goal_step_progress.find? (fun p => p.user_id == uid && p.step_id == sid) with
    | none =>
        dsimp only
        refine ⟨{ user_id := uid, step_id := sid, status := GoalStepStatus.COMPLETE,
                  completed_at := some now }, ?_, rfl, rfl, rfl, rfl⟩
        simp
    | some x =>
        have hx := List.find?_some h
        simp only [Bool.and_eq_true, beq_iff_eq] at hx
        exact ⟨{ x with status := GoalStepStatus.COMPLETE, completed_at := some now },
               mem_updateFirst_of_find? h, hx.1, hx.2, rfl, rfl⟩

/-- Claim C8, amended: re-invoking the complete-child operation on an
already-complete child does not error in its completion logic (the goal
path returns `ok` whenever the step exists; the challenge path's only
later failure is the unrelated 404 of its response-building tail), but
instead of leaving `completed_at` unchanged it restamps the child row
with the invocation time `now` on both paths; the timestamp is therefore
unchanged only when the clock has not advanced between invocations. -/
theorem C8_amended_restamp (db : DB) (uid sid oid : Nat) (now : Int) :
    (∀ step, db.goal_steps.find? (fun s => s.id == sid) = some step →
      (∃ b, (complete_goal_step db uid sid now).2 = Except.ok b) ∧
      ∃ p ∈ (complete_goal_step db uid sid now).1.goal_step_progress,
        p.user_id = uid ∧ p.step_id = sid ∧ p.status = GoalStepStatus.COMPLETE ∧
        p.completed_at = some now) ∧
    (∀ obj, db.objectives.find? (fun o => o.id == oid) = some obj →
      ∃ p ∈ (complete_objective db uid oid now).1.objective_progress,
        p.user_id = uid ∧ p.objective_id = oid ∧ p.status = ObjectiveStatus.COMPLETE ∧
        p.completed_at = some now) := by
  constructor
  · intro step hstep
    exact complete_goal_step_row db uid sid now hstep
  · intro obj hobj
    obtain ⟨p, hp, h1, h2, h3, h4⟩ := markObjectiveComplete_row db uid oid now
    exact ⟨p, complete_objective_preserves_marked db uid oid now hobj hp, h1, h2, h3, h4⟩

/-- Witness for `C8_amended_restamp`: the goal path at `exDB8b` (step 77
exists) and the challenge path at `exDB8` (objective 10 exists). -/
theorem C8_amended_restamp_witness :
    ((∃ b, (complete_goal_step exDB8b 1 77 100).2 = Except.ok b) ∧
     ∃ p ∈ (complete_goal_step exDB8b 1 77 100).1.goal_step_progress,
       p.user_id = 1 ∧ p.step_id = 77 ∧ p.status = GoalStepStatus.COMPLETE ∧
       p.completed_at = some 100) ∧
    (∃ p ∈ (complete_objective exDB8 1 10 100).1.objective_progress,
       p.user_id = 1 ∧ p.objective_id = 10 ∧ p.status = ObjectiveStatus.COMPLETE ∧
       p.completed_at = some 100) :=
  ⟨(C8_amended_restamp exDB8b 1 77 10 100).1
      { id := 77, goal_id := 3, title := "", points := 0, sort_order := 0, is_required := true }
      (by decide),
   (C8_amended_restamp exDB8 1 77 10 100).2
      { id := 10, challenge_id := 1, points := 0, sort_order := 0, is_required := true }
      (by decide)⟩

theorem activateKeepStart_challenges (db : DB) (uid cid : Nat) (now : Int) :
    (activateChallengeKeepStart db uid cid now).challenges = db.challenges := by
  unfold activateChallengeKeepStart
  cases db.challenge_progress.find? (progressKeyPred uid cid) <;> rfl

theorem find?_id_of_nodup {l : List Challenge}
    (hn : (l.map (fun c => c.id)).Nodup) {c : Challenge} (hc : c ∈ l) :
    l.find? (fun x => x.id == c.id) = some c := by
  induction l with
  | nil => simp at hc
  | cons a l ih =>
      rcases List.mem_cons.mp hc with rfl | hc
      · exact List.find?_cons_of_pos _ (by simp)
      · have hne : ¬ (a.id == c.id) = true := by
          simp only [List.map_cons, List.nodup_cons] at hn
          intro hbe
          exact hn.1 (by
            rw [List.mem_map]
            exact ⟨c, hc, by simpa using (beq_iff_eq.mp hbe).symm⟩)
        rw [@List.find?_cons_of_neg _ (fun x => x.id == c.id) a l hne]
        exact ih (by simpa using (List.nodup_cons.mp (by simpa using hn)).2) hc

theorem activateKeepStart_find?_inProgress (db : DB) (uid cid : Nat) (now : Int)
    (h1 : db.challenge_progress.find? (inProgressPred uid) = none) :
    ∃ r, (activateChallengeKeepStart db uid cid now).challenge_progress.find?
           (inProgressPred uid) = some r ∧
         (activateChallengeKeepStart db uid cid now).challenge_progress.find?
           (progressKeyPred uid cid) = some r ∧
         r.user_id = uid ∧ r.challenge_id = cid := by
  unfold activateChallengeKeepStart
  cases hk : db.challenge_progress.find? (progressKeyPred uid cid) with
  | none =>
      refine ⟨{ user_id := uid, challenge_id := cid, status := ChallengeStatus.IN_PROGRESS,
                started_at := some now, completed_at := none }, ?_, ?_, rfl, rfl⟩
      · show (db.challenge_progress ++ [_]).find? (inProgressPred uid) = _
        rw [List.find?_append, h1]
        simp [inProgressPred]
      · show (db.challenge_progress ++ [_]).find? (progressKeyPred uid cid) = _
        rw [List.find?_append, hk]
        simp [progressKeyPred]
  | some x =>
      have hx := progressKeyPred_iff.mp (List.find?_some hk)
      refine ⟨({ x with status := ChallengeStatus.IN_PROGRESS, started_at := (match x.started_at with | none => some now | some t => some t) } : UserChallengeProgress), ?_, ?_, hx.1, hx.2⟩
      · exact find?_updateFirst_of_none h1 hk
          (by simp [inProgressPred, hx.1])
      · exact find?_updateFirst_eq hk
          (by simp [progressKeyPred, hx.1, hx.2])

theorem getOrAssign_idem (db : DB) (uid : Nat) (n1 n2 : Int)
    (hid : (db.challenges.map (fun c => c.id)).Nodup) :
    getOrAssignActiveChallenge ((getOrAssignActiveChallenge db uid n1).1) uid n2 =
      getOrAssignActiveChallenge db uid n1 := by
  cases h1 : db.challenge_progress.find? (inProgressPred uid) with
  | some prog =>
      have e1 : getOrAssignActiveChallenge db uid n1 =
          (db, db.challenges.find? (fun c => c.id == prog.challenge_id), some prog) := by
        unfold getOrAssignActiveChallenge
        rw [h1]
      rw [e1]
      unfold getOrAssignActiveChallenge
      rw [h1]
  | none =>
      cases h2 : (sortBy challengeIdLe
          (db.challenges.filter
            (fun c => c.is_active && !((completedChallengeIds db uid).contains c.id)))).head? with
      | none =>
          have e1 : getOrAssignActiveChallenge db uid n1 = (db, none, none) := by
            unfold getOrAssignActiveChallenge
            rw [h1]
            dsimp only
            rw [h2]
          rw [e1]
          unfold getOrAssignActiveChallenge
          rw [h1]
          dsimp only
          rw [h2]
      | some ch =>
          have e1 : getOrAssignActiveChallenge db uid n1 =
              (activateChallengeKeepStart db uid ch.id n1, some ch,
               (activateChallengeKeepStart db uid ch.id n1).challenge_progress.find?
                 (progressKeyPred uid ch.id)) := by
            unfold getOrAssignActiveChallenge
            rw [h1]
            dsimp only
            rw [h2]
          rw [e1]
          obtain ⟨r, hf1, hf2, hru, hrc⟩ := activateKeepStart_find?_inProgress db uid ch.id n1 h1
          have hch : ch ∈ db.challenges := by
            have := List.mem_of_mem_head? (l := sortBy challengeIdLe
              (db.challenges.filter
                (fun c => c.is_active && !((completedChallengeIds db uid).contains c.id)))) (by rw [h2]; rfl)
            exact (List.mem_filter.mp (mem_sortBy.mp this)).1
          unfold getOrAssignActiveChallenge
          rw [hf1]
          dsimp only
          rw [activateKeepStart_challenges, hrc, find?_id_of_nodup hid hch, hf2]

theorem activateKeepStart_preserves_started (db : DB) (uid cid : Nat) (now : Int)
    {r : UserChallengeProgress}
    (hr : db.challenge_progress.find? (progressKeyPred uid cid) = some r)
    {t : Int} (ht : r.started_at = some t) :
    ((activateChallengeKeepStart db uid cid now).challenge_progress.find?
        (progressKeyPred uid cid)).map (fun p => p.started_at) = some (some t) := by
  unfold activateChallengeKeepStart
  rw [hr]
  dsimp only
  have hx := progressKeyPred_iff.mp (List.find?_some hr)
  rw [find?_updateFirst_eq hr (by simp [progressKeyPred, hx.1, hx.2])]
  simp [ht]

/-- Claim C4, amended: `get_or_assign_active_challenge` is idempotent --
an immediate second call returns the identical store and result (so in
particular the same `started_at`), and the shared keep-start activation
block (used by get-or-assign and by both successor activations) never
overwrites a `started_at` that is already set.  The claim's further
assertion that the assigns inside swap and snooze also preserve
`started_at` is false: those two paths overwrite it with `now` (see the
counterexample). -/
theorem C4_amended_assign_idempotence (db : DB) (uid cid : Nat) (n1 n2 now : Int)
    (hid : (db.challenges.map (fun c => c.id)).Nodup) :
    (getOrAssignActiveChallenge ((getOrAssignActiveChallenge db uid n1).1) uid n2 =
       getOrAssignActiveChallenge db uid n1) ∧
    (∀ r t, db.challenge_progress.find? (progressKeyPred uid cid) = some r →
       r.started_at = some t →
       ((activateChallengeKeepStart db uid cid now).challenge_progress.find?
           (progressKeyPred uid cid)).map (fun p => p.started_at) = some (some t)) :=
  ⟨getOrAssign_idem db uid n1 n2 hid,
   fun r t hr ht => activateKeepStart_preserves_started db uid cid now hr ht⟩

/-- Witness for `C4_amended_assign_idempotence` at `exDB4` (challenge
ids 1, 2 are distinct; the row for challenge 2 has `started_at = 5`). -/
theorem C4_amended_assign_idempotence_witness :
    (getOrAssignActiveChallenge ((getOrAssignActiveChallenge exDB4 1 50).1) 1 60 =
       getOrAssignActiveChallenge exDB4 1 50) ∧
    ((activateChallengeKeepStart exDB4 1 2 100).challenge_progress.find?
        (progressKeyPred 1 2)).map (fun p => p.started_at) = some (some 5) :=
  ⟨(C4_amended_assign_idempotence exDB4 1 2 50 60 100 (by decide)).1,
   (C4_amended_assign_idempotence exDB4 1 2 50 60 100 (by decide)).2
     { user_id := 1, challenge_id := 2, status := ChallengeStatus.NOT_STARTED,
       started_at := some 5, completed_at := none }
     5 (by decide) (by decide)⟩

theorem markObjectiveComplete_challenge_progress (db : DB) (uid oid : Nat) (now : Int) :
    (markObjectiveComplete db uid oid now).challenge_progress = db.challenge_progress := by
  unfold markObjectiveComplete
  cases db.objective_progress.find? (fun p => p.user_id == uid && p.objective_id == oid) <;> rfl

theorem markObjectiveComplete_challenge_links (db : DB) (uid oid : Nat) (now : Int) :
    (markObjectiveComplete db uid oid now).challenge_links = db.challenge_links := by
  unfold markObjectiveComplete
  cases db.objective_progress.find? (fun p => p.user_id == uid && p.objective_id == oid) <;> rfl

theorem backfill_challenge_progress (db : DB) (uid cid : Nat) :
    (backfillObjectiveProgress db uid cid).challenge_progress = db.challenge_progress := by
  unfold backfillObjectiveProgress
  rfl

theorem activateKeepStart_row (db : DB) (uid cid : Nat) (now : Int) :
    ∃ p ∈ (activateChallengeKeepStart db uid cid now).challenge_progress,
      p.user_id = uid ∧ p.challenge_id = cid ∧ p.status = ChallengeStatus.IN_PROGRESS ∧
      p.started_at.isSome = true := by
  unfold activateChallengeKeepStart
  cases hk : db.challenge_progress.find? (progressKeyPred uid cid) with
  | none =>
      refine ⟨{ user_id := uid, challenge_id := cid, status := ChallengeStatus.IN_PROGRESS,
                started_at := some now, completed_at := none }, ?_, rfl, rfl, rfl, rfl⟩
      simp
  | some x =>
      have hx := progressKeyPred_iff.mp (List.find?_some hk)
      refine ⟨({ x with status := ChallengeStatus.IN_PROGRESS, started_at := (match x.started_at with | none => some now | some t => some t) } : UserChallengeProgress),
              mem_updateFirst_of_find? hk, hx.1, hx.2, rfl, ?_⟩
      cases x.started_at <;> rfl

theorem activateKeepStart_filter_other (db : DB) (uid cid : Nat) (now : Int) {c : Nat}
    (hc : c ≠ cid) :
    (activateChallengeKeepStart db uid cid now).challenge_progress.filter
        (progressKeyPred uid c) =
      db.challenge_progress.filter (progressKeyPred uid c) := by
  unfold activateChallengeKeepStart
  cases hk : db.challenge_progress.find? (progressKeyPred uid cid) with
  | none =>
      show (db.challenge_progress ++ [_]).filter (progressKeyPred uid c) = _
      rw [List.filter_append]
      have : (progressKeyPred uid c
          { user_id := uid, challenge_id := cid, status := ChallengeStatus.IN_PROGRESS,
            started_at := some now, completed_at := none }) = false := by
        simp [progressKeyPred]
        exact fun h => absurd h.symm hc
      simp [this]
  | some x =>
      apply filter_updateFirst_of_disjoint
      · intro a ha
        have h1 := progressKeyPred_iff.mp ha
        simp [progressKeyPred, h1.1, h1.2]
        exact fun h => absurd h.symm hc
      · intro a ha
        have h1 := progressKeyPred_iff.mp ha
        simp [progressKeyPred, h1.1, h1.2]
        exact fun h => absurd h.symm hc

theorem completeChallengeAndChain_activates (db : DB) (uid cid : Nat) (now : Int)
    {link : ChallengeLink}
    (hlink : db.challenge_links.find?
        (fun l => l.from_challenge_id == cid && l.condition == "ON_COMPLETE") = some link) :
    (∃ p ∈ (completeChallengeAndChain db uid cid now).challenge_progress,
       p.user_id = uid ∧ p.challenge_id = link.to_challenge_id ∧
       p.status = ChallengeStatus.IN_PROGRESS ∧ p.started_at.isSome = true) ∧
    (∀ c, c ≠ cid → c ≠ link.to_challenge_id →
       (completeChallengeAndChain db uid cid now).challenge_progress.filter
           (progressKeyPred uid c) =
         db.challenge_progress.filter (progressKeyPred uid c)) := by
  unfold completeChallengeAndChain
  cases hp : db.challenge_progress.find? (progressKeyPred uid cid) with
  | none =>
      dsimp only
      rw [hlink]
      dsimp only
      constructor
      · exact activateKeepStart_row db uid link.to_challenge_id now
      · intro c hc1 hc2
        exact activateKeepStart_filter_other db uid link.to_challenge_id now hc2
  | some x =>
      dsimp only
      rw [hlink]
      dsimp only
      constructor
      · exact activateKeepStart_row _ uid link.to_challenge_id now
      · intro c hc1 hc2
        rw [activateKeepStart_filter_other _ uid link.to_challenge_id now hc2]
        show (updateFirst (progressKeyPred uid cid) _ db.challenge_progress).filter
            (progressKeyPred uid c) = _
        apply filter_updateFirst_of_disjoint
        · intro a ha
          have h1 := progressKeyPred_iff.mp ha
          simp [progressKeyPred, h1.1, h1.2]
          exact fun h => absurd h.symm hc1
        · intro a ha
          have h1 := progressKeyPred_iff.mp ha
          simp [progressKeyPred, h1.1, h1.2]
          exact fun h => absurd h.symm hc1

/-- Claim C3, amended: in `complete_objective`, completing the last
required objective of a challenge resolves the successor through the
link table only -- the `ON_COMPLETE` edge found by `find?` (unique per
the `uq_challenge_link_condition` constraint) is activated, ending
IN_PROGRESS with `started_at` set, and the progress rows of every other
challenge of the user are untouched (exactly one successor).  The direct
`next_challenge_id` fast path exists only in the separate
`complete_challenge` endpoint and is never consulted here (see the
counterexample). -/
theorem C3_amended_link_resolution (db : DB) (uid oid : Nat) (now : Int)
    (obj : Objective) (link : ChallengeLink)
    (hobj : db.objectives.find? (fun o => o.id == oid) = some obj)
    (hall : allRequiredObjectivesComplete (markObjectiveComplete db uid oid now) uid
              obj.challenge_id = true)
    (hlink : db.challenge_links.find?
               (fun l => l.from_challenge_id == obj.challenge_id &&
                         l.condition == "ON_COMPLETE") = some link) :
    (∃ p ∈ (complete_objective db uid oid now).1.challenge_progress,
        p.user_id = uid ∧ p.challenge_id = link.to_challenge_id ∧
        p.status = ChallengeStatus.IN_PROGRESS ∧ p.started_at.isSome = true) ∧
    (∀ c, c ≠ obj.challenge_id → c ≠ link.to_challenge_id →
        (complete_objective db uid oid now).1.challenge_progress.filter
            (progressKeyPred uid c) =
          db.challenge_progress.filter (progressKeyPred uid c)) := by
  have hlink1 : (markObjectiveComplete db uid oid now).challenge_links.find?
      (fun l => l.from_challenge_id == obj.challenge_id && l.condition == "ON_COMPLETE") =
      some link := by
    rw [markObjectiveComplete_challenge_links]
    exact hlink
  have hact := completeChallengeAndChain_activates (markObjectiveComplete db uid oid now)
    uid obj.challenge_id now hlink1
  have key : (complete_objective db uid oid now).1.challenge_progress =
      (completeChallengeAndChain (markObjectiveComplete db uid oid now) uid
        obj.challenge_id now).challenge_progress := by
    unfold complete_objective
    rw [hobj]
    dsimp only
    rw [if_pos hall]
    obtain ⟨p, hp, hpu, hpc, hps, hpt⟩ := hact.1
    have hfs : ((completeChallengeAndChain (markObjectiveComplete db uid oid now) uid
        obj.challenge_id now).challenge_progress.find? (inProgressPred uid)).isSome := by
      rw [List.find?_isSome]
      exact ⟨p, hp, by simp [inProgressPred, hpu, hps]⟩
    obtain ⟨r, hr⟩ := Option.isSome_iff_exists.mp hfs
    have e : getOrAssignActiveChallenge
        (completeChallengeAndChain (markObjectiveComplete db uid oid now) uid
          obj.challenge_id now) uid now =
        (completeChallengeAndChain (markObjectiveComplete db uid oid now) uid
           obj.challenge_id now,
         (completeChallengeAndChain (markObjectiveComplete db uid oid now) uid
           obj.challenge_id now).challenges.find? (fun c => c.id == r.challenge_id),
         some r) := by
      unfold getOrAssignActiveChallenge
      rw [hr]
    rw [e]
    cases hch : (completeChallengeAndChain (markObjectiveComplete db uid oid now) uid
        obj.challenge_id now).challenges.find? (fun c => c.id == r.challenge_id) with
    | none => rfl
    | some ch =>
        dsimp only
        rw [backfill_challenge_progress]
  constructor
  · rw [key]
    exact hact.1
  · intro c hc1 hc2
    rw [key, hact.2 c hc1 hc2, markObjectiveComplete_challenge_progress]

/-- Witness for `C3_amended_link_resolution` at `exDB3b`: objective 50
is the last required objective of challenge 5, which links to 7. -/
theorem C3_amended_link_resolution_witness :
    (∃ p ∈ (complete_objective exDB3b 1 50 100).1.challenge_progress,
        p.user_id = 1 ∧ p.challenge_id = 7 ∧ p.status = ChallengeStatus.IN_PROGRESS ∧
        p.started_at.isSome = true) ∧
    (∀ c, c ≠ 5 → c ≠ 7 →
        (complete_objective exDB3b 1 50 100).1.challenge_progress.filter
            (progressKeyPred 1 c) =
          exDB3b.challenge_progress.filter (progressKeyPred 1 c)) :=
  C3_amended_link_resolution exDB3b 1 50 100
    { id := 50, challenge_id := 5, points := 0, sort_order := 0, is_required := true }
    { from_challenge_id := 5, to_challenge_id := 7, condition := "ON_COMPLETE" }
    (by decide) (by decide) (by decide)

theorem updateFirst_eq_map_or {p : α → Bool} {f : α → α} {l : List α} {x : α}
    (hx : x ∈ updateFirst p f l) : x ∈ l ∨ ∃ y ∈ l, p y = true ∧ x = f y := by
  induction l with
  | nil => simp [updateFirst] at hx
  | cons a l ih =>
      by_cases hp : p a = true
      · simp only [updateFirst, if_pos hp] at hx
        rcases List.mem_cons.mp hx with rfl | hx
        · exact Or.inr ⟨a, List.mem_cons_self a l, hp, rfl⟩
        · exact Or.inl (List.mem_cons_of_mem a hx)
      · simp only [updateFirst, if_neg hp] at hx
        rcases List.mem_cons.mp hx with rfl | hx
        · exact Or.inl (List.mem_cons_self x l)
        · rcases ih hx with h | ⟨y, hy, hpy, rfl⟩
          · exact Or.inl (List.mem_cons_of_mem a h)
          · exact Or.inr ⟨y, List.mem_cons_of_mem a hy, hpy, rfl⟩

theorem updateFirst_unique_key_rows {q : UserChallengeProgress → Bool}
    {l : List UserChallengeProgress}
    {r : UserChallengeProgress}
    (hfind : l.find? q = some r)
    (hN : progressKeysNodup l)
    {f : UserChallengeProgress → UserChallengeProgress} :
    ∀ p ∈ updateFirst q f l, chKey p = chKey r → p = f r := by
  induction l with
  | nil => simp at hfind
  | cons a l ih =>
      have hN' := hN
      unfold progressKeysNodup at hN'
      simp only [List.map_cons, List.nodup_cons] at hN'
      by_cases hp : q a = true
      · rw [List.find?_cons_of_pos _ hp, Option.some.injEq] at hfind
        subst hfind
        intro p hp' hkey
        simp only [updateFirst, if_pos hp] at hp'
        rcases List.mem_cons.mp hp' with rfl | hp'
        · rfl
        · exfalso
          exact hN'.1 (hkey ▸ List.mem_map.mpr ⟨p, hp', rfl⟩)
      · rw [List.find?_cons_of_neg _ hp] at hfind
        intro p hp' hkey
        simp only [updateFirst, if_neg hp] at hp'
        rcases List.mem_cons.mp hp' with rfl | hp'
        · exfalso
          have hrmem : r ∈ l := List.mem_of_find?_eq_some hfind
          exact hN'.1 (hkey ▸ List.mem_map.mpr ⟨r, hrmem, rfl⟩)
        · exact ih hfind (by
            unfold progressKeysNodup
            exact hN'.2) p hp' hkey

theorem activateResetStart_snoozed (db : DB) (uid cid : Nat) (now : Int) :
    (activateChallengeResetStart db uid cid now).snoozed = db.snoozed := by
  unfold activateChallengeResetStart
  cases db.challenge_progress.find? (progressKeyPred uid cid) <;> rfl

theorem snoozeUpsert_row (db : DB) (uid cid : Nat) (days now : Int) :
    ∃ s ∈ (snoozeUpsert db uid cid days now).snoozed,
      s.user_id = uid ∧ s.challenge_id = cid ∧ s.snoozed_until = now + days * 86400 := by
  unfold snoozeUpsert
  cases h : db.snoozed.find? (fun s => s.user_id == uid && s.challenge_id == cid) with
  | none =>
      refine ⟨{ user_id := uid, challenge_id := cid, snoozed_at := now,
                snoozed_until := now + days * 86400 }, ?_, rfl, rfl, rfl⟩
      simp
  | some x =>
      have hx := List.find?_some h
      simp only [Bool.and_eq_true, beq_iff_eq] at hx
      exact ⟨({ x with snoozed_until := now + days * 86400, snoozed_at := now } : SnoozedChallenge),
             mem_updateFirst_of_find? h, hx.1, hx.2, rfl⟩

theorem snoozeUpsert_challenge_progress (db : DB) (uid cid : Nat) (days now : Int) :
    (snoozeUpsert db uid cid days now).challenge_progress = db.challenge_progress := by
  unfold snoozeUpsert
  cases db.snoozed.find? (fun s => s.user_id == uid && s.challenge_id == cid) <;> rfl

theorem revertInProgress_snoozed (db : DB) (uid : Nat) :
    (revertInProgress db uid).snoozed = db.snoozed := rfl

theorem snoozeReplacement_snoozed (dbq db : DB) (uid : Nat) (now : Int) :
    (snoozeReplacement dbq db uid now).snoozed = db.snoozed := by
  unfold snoozeReplacement
  cases (getAvailableChallenges dbq uid now []).head? with
  | none => rfl
  | some newc => exact activateResetStart_snoozed db uid newc.id now

theorem activateResetStart_other_keys (db : DB) (uid cid : Nat) (now : Int) {c : Nat}
    (hc : c ≠ cid) :
    ∀ p ∈ (activateChallengeResetStart db uid cid now).challenge_progress,
      p.user_id = uid → p.challenge_id = c → p ∈ db.challenge_progress := by
  unfold activateChallengeResetStart
  cases hk : db.challenge_progress.find? (progressKeyPred uid cid) with
  | none =>
      intro p hp hpu hpc
      rcases List.mem_append.mp hp with h | h
      · exact h
      · exfalso
        simp only [List.mem_singleton] at h
        subst h
        exact hc hpc.symm
  | some x =>
      intro p hp hpu hpc
      rcases updateFirst_eq_map_or hp with h | ⟨y, hy, hpy, rfl⟩
      · exact h
      · exfalso
        have := progressKeyPred_iff.mp hpy
        simp at hpc
        exact hc (hpc ▸ this.2.symm ▸ rfl)

theorem activateResetStart_key_rows (db : DB) (uid cid : Nat) (now : Int)
    (hN : progressKeysNodup db.challenge_progress)
    (hex : ∃ x ∈ db.challenge_progress, x.user_id = uid ∧ x.challenge_id = cid) :
    ∀ p ∈ (activateChallengeResetStart db uid cid now).challenge_progress,
      p.user_id = uid → p.challenge_id = cid →
      p.status = ChallengeStatus.IN_PROGRESS ∧ p.started_at = some now := by
  obtain ⟨x0, hx0, hxu, hxc⟩ := hex
  have hfs : (db.challenge_progress.find? (progressKeyPred uid cid)).isSome := by
    rw [List.find?_isSome]
    exact ⟨x0, hx0, progressKeyPred_iff.mpr ⟨hxu, hxc⟩⟩
  obtain ⟨x, hx⟩ := Option.isSome_iff_exists.mp hfs
  unfold activateChallengeResetStart
  rw [hx]
  dsimp only
  intro p hp hpu hpc
  have hxkey := progressKeyPred_iff.mp (List.find?_some hx)
  have hkey : chKey p = chKey x := by
    simp [chKey, hpu, hpc, hxkey.1, hxkey.2]
  have heq := updateFirst_unique_key_rows hx hN p hp hkey
  rw [heq]
  exact ⟨rfl, rfl⟩

theorem snooze_challenge_valid_eq (db : DB) (uid : Nat) (days now : Int)
    {r : UserChallengeProgress}
    (h1 : 1 ≤ days) (h2 : days ≤ 30)
    (hfind : db.challenge_progress.find? (inProgressPred uid) = some r) :
    snooze_challenge db uid days now =
      (snoozeReplacement db
         (revertInProgress (snoozeUpsert db uid r.challenge_id days now) uid) uid now,
       Except.ok (now + days * 86400)) := by
  unfold snooze_challenge
  split
  · rename_i hbad
    exfalso
    simp only [Bool.or_eq_true, decide_eq_true_eq] at hbad
    omega
  · rw [hfind]

/-- Counterexample to claim C6 at `exDB4`: user 1 snoozes challenge 1
for 2 days at time 100.  The availability query of the replacement step
runs against the store as committed at entry (the `autoflush=False`
session commits nothing before line 696), so challenge 1 — sorting
first — is re-picked and ends IN_PROGRESS with `started_at = 100` while
its snooze row until 172900 is upserted, contradicting the claimed
revert to NOT_STARTED with `started_at = None`. -/
theorem C6_counterexample :
    ((snooze_challenge exDB4 1 2 100).1.challenge_progress.find?
        (progressKeyPred 1 1)).map (fun p => (p.status, p.started_at)) =
      some (ChallengeStatus.IN_PROGRESS, some 100) ∧
    ((snooze_challenge exDB4 1 2 100).1.snoozed.find?
        (fun s => s.user_id == 1 && s.challenge_id == 1)).map
        (fun s => s.snoozed_until) = some 172900 := by
  decide

/-- Claim C6, amended: `days` outside [1, 30] is rejected with the
invalid-state (400) error and the store returned unchanged; for a user
with an IN_PROGRESS challenge and valid `days`, `snooze_challenge`
answers `snoozed_until = now + days`, upserts a snooze row with that
`snoozed_until`, and the challenge is excluded from the eligibility
filter's output over the resulting store at every instant before
`snoozed_until`.  The revert of the snoozed challenge's progress to
NOT_STARTED with `started_at = None` survives only when the replacement
pick differs from the snoozed challenge: the availability list is
computed on the entry store (the `autoflush=False` session commits
nothing before line 696, so the query at line 667 does not see the
pending snooze row), hence it still contains the snoozed challenge, and
when that challenge is its head the route re-activates it IN_PROGRESS
with `started_at = now`. -/
theorem C6_amended_snooze_contract (db : DB) (uid : Nat) (days now : Int) :
    (days < 1 ∨ 30 < days →
       snooze_challenge db uid days now =
         (db, Except.error (ApiError.badRequest "Snooze days must be between 1 and 30"))) ∧
    (∀ r, 1 ≤ days → days ≤ 30 →
       db.challenge_progress.find? (inProgressPred uid) = some r →
       progressKeysNodup db.challenge_progress →
       (snooze_challenge db uid days now).2 = Except.ok (now + days * 86400) ∧
       (∃ s ∈ (snooze_challenge db uid days now).1.snoozed,
          s.user_id = uid ∧ s.challenge_id = r.challenge_id ∧
          s.snoozed_until = now + days * 86400) ∧
       ((∀ newc, (getAvailableChallenges db uid now []).head? = some newc →
           newc.id ≠ r.challenge_id) →
          ∀ p ∈ (snooze_challenge db uid days now).1.challenge_progress,
            p.user_id = uid → p.challenge_id = r.challenge_id →
            p.status = ChallengeStatus.NOT_STARTED ∧ p.started_at = none) ∧
       (∀ newc, (getAvailableChallenges db uid now []).head? = some newc →
          newc.id = r.challenge_id →
          ∀ p ∈ (snooze_challenge db uid days now).1.challenge_progress,
            p.user_id = uid → p.challenge_id = r.challenge_id →
            p.status = ChallengeStatus.IN_PROGRESS ∧ p.started_at = some now) ∧
       (∀ t, t < now + days * 86400 →
          r.challenge_id ∉
            ((getAvailableChallenges (snooze_challenge db uid days now).1 uid t []).map
              (fun c => c.id)))) := by
  constructor
  · intro hbad
    unfold snooze_challenge
    split
    · rfl
    · rename_i hcond
      exfalso
      simp only [Bool.or_eq_true, decide_eq_true_eq, not_or] at hcond
      rcases hbad with h | h
      · exact absurd h hcond.1
      · exact absurd h hcond.2
  · intro r h1 h2 hfind hN
    rw [snooze_challenge_valid_eq db uid days now h1 h2 hfind]
    dsimp only
    have hrid := inProgressPred_iff.mp (List.find?_some hfind)
    obtain ⟨s, hs_mem, hsu, hsc, hst⟩ := snoozeUpsert_row db uid r.challenge_id days now
    have hs_final : s ∈ (snoozeReplacement db
        (revertInProgress (snoozeUpsert db uid r.challenge_id days now) uid) uid now).snoozed := by
      rw [snoozeReplacement_snoozed, revertInProgress_snoozed]
      exact hs_mem
    have hN2 : progressKeysNodup (revertInProgress
        (snoozeUpsert db uid r.challenge_id days now) uid).challenge_progress := by
      unfold revertInProgress
      dsimp only
      rw [snoozeUpsert_challenge_progress]
      exact progressKeysNodup_updateFirst (fun a => rfl) hN
    refine ⟨rfl, ⟨s, hs_final, hsu, hsc, hst⟩, ?_, ?_, ?_⟩
    · intro hhead p hp hpu hpc
      have hp2 : p ∈ (revertInProgress
          (snoozeUpsert db uid r.challenge_id days now) uid).challenge_progress := by
        revert hp
        unfold snoozeReplacement
        cases hav : (getAvailableChallenges db uid now []).head? with
        | none => exact fun hp => hp
        | some newc =>
            intro hp
            have hne : r.challenge_id ≠ newc.id := fun he => hhead newc hav he.symm
            exact activateResetStart_other_keys _ uid newc.id now
              (fun heq => hne (by rw [heq])) p hp hpu hpc
      have hp3 : p ∈ updateFirst (inProgressPred uid)
          (fun p => { p with status := ChallengeStatus.NOT_STARTED, started_at := none })
          db.challenge_progress := by
        have hth := hp2
        unfold revertInProgress at hth
        rw [snoozeUpsert_challenge_progress] at hth
        exact hth
      have hkey : chKey p = chKey r := by
        simp [chKey, hpu, hpc, hrid.1]
      have heq := updateFirst_unique_key_rows hfind hN p hp3 hkey
      rw [heq]
      exact ⟨rfl, rfl⟩
    · intro newc hav hid
      have hreq : (snoozeReplacement db
            (revertInProgress (snoozeUpsert db uid r.challenge_id days now) uid) uid now) =
          activateChallengeResetStart
            (revertInProgress (snoozeUpsert db uid r.challenge_id days now) uid)
            uid newc.id now := by
        unfold snoozeReplacement
        rw [hav]
      rw [hreq, hid]
      apply activateResetStart_key_rows _ uid r.challenge_id now hN2
      have hmem2 : ({ r with status := ChallengeStatus.NOT_STARTED, started_at := none } :
          UserChallengeProgress) ∈
          (revertInProgress (snoozeUpsert db uid r.challenge_id days now)
            uid).challenge_progress := by
        show _ ∈ updateFirst (inProgressPred uid)
          (fun p => { p with status := ChallengeStatus.NOT_STARTED, started_at := none })
          (snoozeUpsert db uid r.challenge_id days now).challenge_progress
        rw [snoozeUpsert_challenge_progress]
        exact mem_updateFirst_of_find? hfind
      exact ⟨_, hmem2, hrid.1, rfl⟩
    · intro t ht hmem
      rcases List.mem_map.mp hmem with ⟨c, hc_mem, hc_id⟩
      have helig := (mem_getAvailable_iff.mp hc_mem).2
      have hle := helig.2.2.2.1 s hs_final hsu (by rw [hsc, hc_id])
      rw [hst] at hle
      omega

/-- Witness for `C6_amended_snooze_contract` at `exDB4`: `days = 0` is
rejected with no state change; `days = 2` snoozes challenge 1 until
172900, and — challenge 1 being the head of the entry-store availability
list — the re-activation conjunct applies with a non-vacuous premise. -/
theorem C6_amended_snooze_contract_witness :
    (snooze_challenge exDB4 1 0 100 =
       (exDB4, Except.error (ApiError.badRequest "Snooze days must be between 1 and 30"))) ∧
    ((snooze_challenge exDB4 1 2 100).2 = Except.ok (100 + 2 * 86400) ∧
     (∃ s ∈ (snooze_challenge exDB4 1 2 100).1.snoozed,
        s.user_id = 1 ∧ s.challenge_id = 1 ∧ s.snoozed_until = 100 + 2 * 86400) ∧
     ((∀ newc, (getAvailableChallenges exDB4 1 100 []).head? = some newc →
         newc.id ≠ 1) →
        ∀ p ∈ (snooze_challenge exDB4 1 2 100).1.challenge_progress,
          p.user_id = 1 → p.challenge_id = 1 →
          p.status = ChallengeStatus.NOT_STARTED ∧ p.started_at = none) ∧
     (∀ newc, (getAvailableChallenges exDB4 1 100 []).head? = some newc →
        newc.id = 1 →
        ∀ p ∈ (snooze_challenge exDB4 1 2 100).1.challenge_progress,
          p.user_id = 1 → p.challenge_id = 1 →
          p.status = ChallengeStatus.IN_PROGRESS ∧ p.started_at = some 100) ∧
     (∀ t, t < 100 + 2 * 86400 →
        (1 : Nat) ∉
          ((getAvailableChallenges (snooze_challenge exDB4 1 2 100).1 1 t []).map
            (fun c => c.id)))) :=
  ⟨(C6_amended_snooze_contract exDB4 1 0 100).1 (Or.inl (by decide)),
   (C6_amended_snooze_contract exDB4 1 2 100).2
     { user_id := 1, challenge_id := 1, status := ChallengeStatus.IN_PROGRESS,
       started_at := some 10, completed_at := none }
     (by decide) (by decide) (by decide) (by decide)⟩

theorem deadline_mem_fields {db : DB} {uid : Nat} {now : Int} {n : Notification}
    (hn : n ∈ generateDeadlineReminders db uid now) :
    n.user_id = uid ∧ n.type = NotificationType.DEADLINE ∧ n.scheduled_for = now := by
  unfold generateDeadlineReminders at hn
  rcases List.mem_flatMap.mp hn with ⟨c, hc, hin⟩
  cases hdue : c.due_date with
  | none =>
      rw [hdue] at hin
      simp at hin
  | some due =>
      rw [hdue] at hin
      dsimp only at hin
      rcases List.mem_filterMap.mp hin with ⟨w, hw, hfw⟩
      by_cases hd : (daysBetween due now == w.1) = true
      · rw [if_pos hd] at hfw
        by_cases hex : ((db.notifications.find? (deadlineDedupPred uid c.id w.1 now)).isSome) = true
        · rw [if_pos hex] at hfw
          simp at hfw
        · rw [if_neg hex] at hfw
          rw [Option.some.injEq] at hfw
          subst hfw
          exact ⟨rfl, rfl, rfl⟩
      · rw [if_neg hd] at hfw
        simp at hfw

theorem nudge_some_fields {db : DB} {uid : Nat} {now : Int} {pick : Nat} {d : Int}
    {n : Notification}
    (h : generateInactivityNudge db uid now pick d = some n) :
    n.user_id = uid ∧ n.type = NotificationType.NUDGE ∧ n.scheduled_for = now := by
  unfold generateInactivityNudge at h
  by_cases h1 : ((db.notifications.find? (nudgeTodayPred uid now)).isSome) = true
  · rw [if_pos h1] at h
    simp at h
  · rw [if_neg h1] at h
    cases hmax : (userCompletionTimes db uid).max? with
    | none =>
        rw [hmax] at h
        dsimp only at h
        rw [Option.some.injEq] at h
        subst h
        exact ⟨rfl, rfl, rfl⟩
    | some last =>
        rw [hmax] at h
        dsimp only at h
        by_cases hd : d ≤ daysBetween now last
        · rw [if_pos hd] at h
          rw [Option.some.injEq] at h
          subst h
          exact ⟨rfl, rfl, rfl⟩
        · rw [if_neg hd] at h
          simp at h

theorem generateDeadlineReminders_suppressed (db : DB) (uid : Nat) (now : Int)
    (ns : List Notification)
    (hsub : ∀ n ∈ generateDeadlineReminders db uid now, n ∈ ns) :
    generateDeadlineReminders { db with notifications := db.notifications ++ ns } uid now = [] := by
  unfold generateDeadlineReminders
  rw [List.flatMap_eq_nil_iff]
  intro c hc
  dsimp only
  cases hdue : c.due_date with
  | none => rfl
  | some due =>
      dsimp only
      rw [List.filterMap_eq_nil_iff]
      intro w hw
      by_cases hd : (daysBetween due now == w.1) = true
      · rw [if_pos hd]
        have hisS : (((db.notifications ++ ns).find?
            (deadlineDedupPred uid c.id w.1 now)).isSome) = true := by
          cases hfind : db.notifications.find? (deadlineDedupPred uid c.id w.1 now) with
          | some y =>
              rw [List.find?_append, hfind]
              rfl
          | none =>
              have hn0 : deadlineNotification uid c w now ∈
                  generateDeadlineReminders db uid now := by
                unfold generateDeadlineReminders
                refine List.mem_flatMap.mpr ⟨c, hc, ?_⟩
                rw [hdue]
                dsimp only
                refine List.mem_filterMap.mpr ⟨w, hw, ?_⟩
                rw [if_pos hd, if_neg (by rw [hfind]; simp)]
              have hns := hsub _ hn0
              rw [List.find?_isSome]
              refine ⟨deadlineNotification uid c w now, List.mem_append_right _ hns, ?_⟩
              unfold deadlineDedupPred deadlineNotification
              simp
        rw [if_pos hisS]
      · rw [if_neg hd]

theorem generateInactivityNudge_suppressed (db : DB) (uid : Nat) (now : Int) (p1 p2 : Nat) :
    generateInactivityNudge
      ({ db with notifications := db.notifications ++
          (match generateInactivityNudge db uid now p1 2 with
           | some n => generateDeadlineReminders db uid now ++ [n]
           | none => generateDeadlineReminders db uid now) }) uid now p2 2 = none := by
  cases hnud : generateInactivityNudge db uid now p1 2 with
  | some n =>
      obtain ⟨hu, hty, hs⟩ := nudge_some_fields hnud
      unfold generateInactivityNudge
      have hisS : ((db.notifications ++
          (generateDeadlineReminders db uid now ++ [n])).find?
            (nudgeTodayPred uid now)).isSome = true := by
        rw [List.find?_isSome]
        refine ⟨n, ?_, ?_⟩
        · exact List.mem_append_right _ (List.mem_append_right _ (List.mem_singleton.mpr rfl))
        · unfold nudgeTodayPred
          simp [hu, hty, hs]
      rw [if_pos hisS]
  | none =>
      unfold generateInactivityNudge
      cases hq : db.notifications.find? (nudgeTodayPred uid now) with
      | some y =>
          have hisS : ((db.notifications ++ generateDeadlineReminders db uid now).find?
              (nudgeTodayPred uid now)).isSome = true := by
            rw [List.find?_append, hq]
            rfl
          rw [if_pos hisS]
      | none =>
          have hdlnone : (generateDeadlineReminders db uid now).find?
              (nudgeTodayPred uid now) = none := by
            rw [List.find?_eq_none]
            intro x hx
            obtain ⟨hxu, hxt, hxs⟩ := deadline_mem_fields hx
            unfold nudgeTodayPred
            simp [hxt]
          have hfind2 : ((db.notifications ++ generateDeadlineReminders db uid now).find?
              (nudgeTodayPred uid now)) = none := by
            rw [List.find?_append, hq, hdlnone]
            rfl
          rw [if_neg (by rw [hfind2]; simp)]
          unfold generateInactivityNudge at hnud
          rw [if_neg (by rw [hq]; simp)] at hnud
          cases hmax : (userCompletionTimes db uid).max? with
          | none =>
              rw [hmax] at hnud
              dsimp only at hnud
              exact absurd hnud (by simp)
          | some last =>
              rw [hmax] at hnud
              dsimp only at hnud
              by_cases hd : (2 : Int) ≤ daysBetween now last
              · rw [if_pos hd] at hnud
                simp at hnud
              · have hmax2 : (userCompletionTimes
                    ({ db with notifications :=
                        db.notifications ++ generateDeadlineReminders db uid now }) uid).max? =
                    some last := hmax
                rw [hmax2]
                dsimp only
                rw [if_neg hd]

/-- Claim C7: notification generation is idempotent over immediate
repetition.  For any store and any draws of the random message index,
running `generate_notifications` twice at the same instant leaves the
notification table of the second run identical in size to the first
run's (the second run creates 0 rows): every deadline candidate is
suppressed by its dedup-key row (either pre-existing or created by the
first run), and the nudge is suppressed by the one-per-day check (or
declines for the same reason it declined the first time). -/
theorem C7_generate_notifications_idempotent (db : DB) (uid : Nat) (now : Int) (p1 p2 : Nat) :
    (generate_notifications ((generate_notifications db uid now p1).1) uid now p2).1.notifications.length =
      (generate_notifications db uid now p1).1.notifications.length ∧
    (generate_notifications ((generate_notifications db uid now p1).1) uid now p2).2 = 0 := by
  have e1 : (generate_notifications db uid now p1).1 =
      { db with notifications := db.notifications ++
          (match generateInactivityNudge db uid now p1 2 with
           | some n => generateDeadlineReminders db uid now ++ [n]
           | none => generateDeadlineReminders db uid now) } := by
    unfold generate_notifications
    cases generateInactivityNudge db uid now p1 2 <;> rfl
  have hdl0 : generateDeadlineReminders ((generate_notifications db uid now p1).1) uid now = [] := by
    rw [e1]
    apply generateDeadlineReminders_suppressed
    intro n hn
    cases generateInactivityNudge db uid now p1 2 with
    | some m => exact List.mem_append_left _ hn
    | none => exact hn
  have hnud0 : generateInactivityNudge ((generate_notifications db uid now p1).1)
      uid now p2 2 = none := by
    rw [e1]
    exact generateInactivityNudge_suppressed db uid now p1 p2
  have e2 : generate_notifications ((generate_notifications db uid now p1).1) uid now p2 =
      ((generate_notifications db uid now p1).1, 0) := by
    generalize hGen : (generate_notifications db uid now p1).1 = db1 at hdl0 hnud0 ⊢
    unfold generate_notifications
    rw [hnud0, hdl0]
    simp
  rw [e2]
  exact ⟨rfl, rfl⟩

/-- Claim C9, amended: whenever the user has no completion history, the
welcome nudge (with dedup key `"nudge:inactivity:{user}:welcome"`) is
emitted as soon as no NUDGE row of the user lies within the trailing
one-day window -- the welcome dedup key itself is never consulted, so
the nudge fires at most once per rolling day, not at most once in total
(the hypothesis `hq` permits arbitrarily many older welcome rows, and
the witness instantiates the store with one). -/
theorem C9_amended_welcome_daily (db : DB) (uid : Nat) (now : Int) (pick : Nat)
    (hq : db.notifications.find? (nudgeTodayPred uid now) = none)
    (hc : userCompletionTimes db uid = []) :
    generateInactivityNudge db uid now pick 2 = some (welcomeNudge uid now) := by
  unfold generateInactivityNudge
  rw [if_neg (by rw [hq]; simp), hc]
  rfl

/-- Witness for `C9_amended_welcome_daily`: `exDB9b` already holds a
welcome nudge from time 0, and at time 259200 (three days later) a
second welcome nudge is produced. -/
theorem C9_amended_welcome_daily_witness :
    generateInactivityNudge exDB9b 1 259200 0 2 = some (welcomeNudge 1 259200) :=
  C9_amended_welcome_daily exDB9b 1 259200 0 (by decide) (by decide)

theorem mem_filter_singleton_length {p : α → Bool} (l : List α) (x : α) :
    ((l ++ [x]).filter p).length ≤ (l.filter p).length + 1 := by
  rw [List.filter_append]
  rw [List.length_append]
  have : ([x].filter p).length ≤ 1 := by
    simp [List.filter]
    split <;> simp
  omega

theorem inProgressCount_activateKeepStart_le (db : DB) (uid cid : Nat) (now : Int) :
    inProgressCount (activateChallengeKeepStart db uid cid now) uid ≤
      inProgressCount db uid + 1 := by
  unfold activateChallengeKeepStart inProgressCount
  cases hk : db.challenge_progress.find? (progressKeyPred uid cid) with
  | none => exact mem_filter_singleton_length _ _
  | some x => exact length_filter_updateFirst_le _

theorem inProgressCount_activateResetStart_le (db : DB) (uid cid : Nat) (now : Int) :
    inProgressCount (activateChallengeResetStart db uid cid now) uid ≤
      inProgressCount db uid + 1 := by
  unfold activateChallengeResetStart inProgressCount
  cases hk : db.challenge_progress.find? (progressKeyPred uid cid) with
  | none => exact mem_filter_singleton_length _ _
  | some x => exact length_filter_updateFirst_le _

theorem inProgressCount_revert (db : DB) (uid : Nat) :
    inProgressCount (revertInProgress db uid) uid = inProgressCount db uid - 1 := by
  unfold revertInProgress inProgressCount
  dsimp only
  rw [filter_updateFirst_tail (fun a ha => by simp [inProgressPred])]
  exact List.length_tail _

theorem nodupKeys_revert (db : DB) (uid : Nat)
    (hn : progressKeysNodup db.challenge_progress) :
    progressKeysNodup (revertInProgress db uid).challenge_progress := by
  unfold revertInProgress
  exact progressKeysNodup_updateFirst (fun a => rfl) hn

theorem nodupKeys_getOrAssign (db : DB) (uid : Nat) (now : Int)
    (hn : progressKeysNodup db.challenge_progress) :
    progressKeysNodup (getOrAssignActiveChallenge db uid now).1.challenge_progress := by
  unfold getOrAssignActiveChallenge
  split
  · exact hn
  · dsimp only
    split
    · exact hn
    · dsimp only
      exact nodupKeys_activateKeepStart _ uid _ now hn

theorem inProgressCount_getOrAssign_le (db : DB) (uid : Nat) (now : Int)
    (hI : inProgressCount db uid ≤ 1) :
    inProgressCount (getOrAssignActiveChallenge db uid now).1 uid ≤ 1 := by
  unfold getOrAssignActiveChallenge
  cases hf : db.challenge_progress.find? (inProgressPred uid) with
  | some prog => exact hI
  | none =>
      dsimp only
      have h0 : inProgressCount db uid = 0 := by
        unfold inProgressCount
        rw [filter_eq_nil_of_find?_none hf]
        rfl
      split
      · exact hI
      · dsimp only
        calc inProgressCount (activateChallengeKeepStart db uid _ now) uid ≤
              inProgressCount db uid + 1 := inProgressCount_activateKeepStart_le db uid _ now
          _ ≤ 1 := by omega

theorem nodupKeys_completeChallengeAndChain (db : DB) (uid cid : Nat) (now : Int)
    (hn : progressKeysNodup db.challenge_progress) :
    progressKeysNodup (completeChallengeAndChain db uid cid now).challenge_progress := by
  unfold completeChallengeAndChain
  cases hp : db.challenge_progress.find? (progressKeyPred uid cid) with
  | none =>
      dsimp only
      split
      · exact hn
      · exact nodupKeys_activateKeepStart _ uid _ now hn
  | some x =>
      dsimp only
      have hn1 : progressKeysNodup
          (updateFirst (progressKeyPred uid cid)
            (fun p => { p with status := ChallengeStatus.COMPLETE, completed_at := some now })
            db.challenge_progress) :=
        progressKeysNodup_updateFirst (fun a => rfl) hn
      split
      · exact hn1
      · exact nodupKeys_activateKeepStart _ uid _ now hn1

theorem nodupKeys_complete_objective (db : DB) (uid oid : Nat) (now : Int)
    (hN : progressKeysNodup db.challenge_progress) :
    progressKeysNodup (complete_objective db uid oid now).1.challenge_progress := by
  unfold complete_objective
  cases hobj : db.objectives.find? (fun o => o.id == oid) with
  | none => exact hN
  | some obj =>
      dsimp only
      have h2 : progressKeysNodup
          (if allRequiredObjectivesComplete (markObjectiveComplete db uid oid now) uid
               obj.challenge_id then
             completeChallengeAndChain (markObjectiveComplete db uid oid now) uid
               obj.challenge_id now
           else markObjectiveComplete db uid oid now).challenge_progress := by
        split
        · exact nodupKeys_completeChallengeAndChain _ uid _ now
            (by rw [markObjectiveComplete_challenge_progress]; exact hN)
        · rw [markObjectiveComplete_challenge_progress]
          exact hN
      cases hga : getOrAssignActiveChallenge
          (if allRequiredObjectivesComplete (markObjectiveComplete db uid oid now) uid
               obj.challenge_id then
             completeChallengeAndChain (markObjectiveComplete db uid oid now) uid
               obj.challenge_id now
           else markObjectiveComplete db uid oid now) uid now with
      | mk db3 r =>
          have h3 : progressKeysNodup db3.challenge_progress := by
            have := nodupKeys_getOrAssign
              (if allRequiredObjectivesComplete (markObjectiveComplete db uid oid now) uid
                   obj.challenge_id then
                 completeChallengeAndChain (markObjectiveComplete db uid oid now) uid
                   obj.challenge_id now
               else markObjectiveComplete db uid oid now) uid now h2
            rw [hga] at this
            exact this
          cases r with
          | mk c pr =>
              cases c with
              | none => exact h3
              | some ch =>
                  dsimp only
                  rw [backfill_challenge_progress]
                  exact h3

theorem nodupKeys_complete_challenge (db : DB) (uid cid : Nat) (now : Int)
    (hN : progressKeysNodup db.challenge_progress) :
    progressKeysNodup (complete_challenge db uid cid now).1.challenge_progress := by
  unfold complete_challenge
  split
  · exact hN
  · split
    · rename_i hp
      split
      · exact progressKeysNodup_concat rfl hp hN
      · show progressKeysNodup (activateChallengeKeepStart _ uid _ now).challenge_progress
        exact nodupKeys_activateKeepStart _ uid _ now (progressKeysNodup_concat rfl hp hN)
    · split
      · exact progressKeysNodup_updateFirst (fun a => rfl) hN
      · show progressKeysNodup (activateChallengeKeepStart _ uid _ now).challenge_progress
        exact nodupKeys_activateKeepStart _ uid _ now
          (progressKeysNodup_updateFirst (fun a => rfl) hN)

theorem add_second_slot_challenge_progress (db : DB) (uid : Nat) (now : Int) :
    (add_second_slot db uid now).1.challenge_progress = db.challenge_progress := by
  unfold add_second_slot
  repeat' (split <;> try dsimp only)
  all_goals try rfl

theorem nodupKeys_swap (db : DB) (uid : Nat) (now : Int)
    (hN : progressKeysNodup db.challenge_progress) :
    progressKeysNodup (swap_challenge db uid now).1.challenge_progress := by
  unfold swap_challenge
  split
  · exact hN
  · split
    · exact hN
    · show progressKeysNodup
        (activateChallengeResetStart (revertInProgress db uid) uid _ now).challenge_progress
      exact nodupKeys_activateResetStart _ uid _ now (nodupKeys_revert db uid hN)

theorem inProgressCount_swap_le (db : DB) (uid : Nat) (now : Int)
    (hI : inProgressCount db uid ≤ 1) :
    inProgressCount (swap_challenge db uid now).1 uid ≤ 1 := by
  unfold swap_challenge
  split
  · exact hI
  · split
    · exact hI
    · rename_i x1 current hcur x2 newc hnew
      show inProgressCount
        (activateChallengeResetStart (revertInProgress db uid) uid newc.id now) uid ≤ 1
      have h1 := inProgressCount_activateResetStart_le (revertInProgress db uid) uid newc.id now
      have h2 := inProgressCount_revert db uid
      omega

theorem nodupKeys_snoozeReplacement (dbq db : DB) (uid : Nat) (now : Int)
    (hn : progressKeysNodup db.challenge_progress) :
    progressKeysNodup (snoozeReplacement dbq db uid now).challenge_progress := by
  unfold snoozeReplacement
  split
  · exact hn
  · exact nodupKeys_activateResetStart _ uid _ now hn

theorem inProgressCount_snoozeReplacement_le (dbq db : DB) (uid : Nat) (now : Int) :
    inProgressCount (snoozeReplacement dbq db uid now) uid ≤ inProgressCount db uid + 1 := by
  unfold snoozeReplacement
  split
  · omega
  · exact inProgressCount_activateResetStart_le _ uid _ now

theorem nodupKeys_snooze (db : DB) (uid : Nat) (days now : Int)
    (hN : progressKeysNodup db.challenge_progress) :
    progressKeysNodup (snooze_challenge db uid days now).1.challenge_progress := by
  unfold snooze_challenge
  split
  · exact hN
  · split
    · exact hN
    · rename_i current heq
      show progressKeysNodup (snoozeReplacement db
        (revertInProgress (snoozeUpsert db uid current.challenge_id days now) uid)
        uid now).challenge_progress
      apply nodupKeys_snoozeReplacement
      unfold revertInProgress
      dsimp only
      rw [snoozeUpsert_challenge_progress]
      exact progressKeysNodup_updateFirst (fun a => rfl) hN

theorem inProgressCount_snooze_le (db : DB) (uid : Nat) (days now : Int)
    (hI : inProgressCount db uid ≤ 1) :
    inProgressCount (snooze_challenge db uid days now).1 uid ≤ 1 := by
  unfold snooze_challenge
  split
  · exact hI
  · split
    · exact hI
    · rename_i current heq
      show inProgressCount (snoozeReplacement db
        (revertInProgress (snoozeUpsert db uid current.challenge_id days now) uid)
        uid now) uid ≤ 1
      have h1 := inProgressCount_snoozeReplacement_le db
        (revertInProgress (snoozeUpsert db uid current.challenge_id days now) uid) uid now
      have h2 := inProgressCount_revert (snoozeUpsert db uid current.challenge_id days now) uid
      have h3 : inProgressCount (snoozeUpsert db uid current.challenge_id days now) uid =
          inProgressCount db uid := by
        unfold inProgressCount
        rw [snoozeUpsert_challenge_progress]
      omega

/-- Claim C1, amended: per-(user, challenge) uniqueness of the
challenge-progress rows is preserved by every public mutation
(get-or-assign, complete objective, complete challenge, swap, snooze,
add second slot; sequential execution models the route-per-transaction
model), and the at-most-one-IN_PROGRESS invariant for the acting user is
preserved by get-or-assign, swap, snooze and add-second-slot.  The
claim's assertion that the completion endpoints also preserve the
IN_PROGRESS invariant is false: `complete_challenge`/`complete_objective`
invoked on a chained challenge other than the user's current one
activate its successor next to the still-active challenge (see the
counterexample). -/
theorem C1_amended_invariants (db : DB) (uid cid oid : Nat) (days now : Int)
    (hN : progressKeysNodup db.challenge_progress)
    (hI : inProgressCount db uid ≤ 1) :
    (progressKeysNodup (getOrAssignActiveChallenge db uid now).1.challenge_progress ∧
       inProgressCount (getOrAssignActiveChallenge db uid now).1 uid ≤ 1) ∧
    (progressKeysNodup (swap_challenge db uid now).1.challenge_progress ∧
       inProgressCount (swap_challenge db uid now).1 uid ≤ 1) ∧
    (progressKeysNodup (snooze_challenge db uid days now).1.challenge_progress ∧
       inProgressCount (snooze_challenge db uid days now).1 uid ≤ 1) ∧
    (progressKeysNodup (add_second_slot db uid now).1.challenge_progress ∧
       inProgressCount (add_second_slot db uid now).1 uid ≤ 1) ∧
    progressKeysNodup (complete_objective db uid oid now).1.challenge_progress ∧
    progressKeysNodup (complete_challenge db uid cid now).1.challenge_progress := by
  refine ⟨⟨nodupKeys_getOrAssign db uid now hN, inProgressCount_getOrAssign_le db uid now hI⟩,
          ⟨nodupKeys_swap db uid now hN, inProgressCount_swap_le db uid now hI⟩,
          ⟨nodupKeys_snooze db uid days now hN, inProgressCount_snooze_le db uid days now hI⟩,
          ⟨?_, ?_⟩,
          nodupKeys_complete_objective db uid oid now hN,
          nodupKeys_complete_challenge db uid cid now hN⟩
  · show progressKeysNodup (add_second_slot db uid now).1.challenge_progress
    rw [show (add_second_slot db uid now).1.challenge_progress = db.challenge_progress from
      add_second_slot_challenge_progress db uid now]
    exact hN
  · show inProgressCount (add_second_slot db uid now).1 uid ≤ 1
    unfold inProgressCount
    rw [add_second_slot_challenge_progress db uid now]
    exact hI

/-- Witness for `C1_amended_invariants` at `exDB4` (distinct progress
keys, one IN_PROGRESS row). -/
theorem C1_amended_invariants_witness :
    progressKeysNodup (complete_challenge exDB4 1 2 100).1.challenge_progress ∧
    inProgressCount (swap_challenge exDB4 1 100).1 1 ≤ 1 :=
  ⟨(C1_amended_invariants exDB4 1 2 10 5 100 (by decide) (by decide)).2.2.2.2.2,
   (C1_amended_invariants exDB4 1 2 10 5 100 (by decide) (by decide)).2.1.2⟩

/-- Claim C2, amended: the zero-required-children rule holds only on the
goal path.  `_check_goal_completion` returns `False` for a goal with
zero required steps and leaves the store untouched, but the
all-required-objectives loop of `complete_objective` is vacuously true
for a challenge with zero required objectives, so such a challenge IS
auto-completed by the complete-child operation. -/
theorem C2_amended_zero_required (db : DB) (uid gid cid : Nat) (now : Int)
    (hg : db.goal_steps.filter (fun s => s.goal_id == gid && s.is_required) = [])
    (hc : db.objectives.filter (fun o => o.challenge_id == cid && o.is_required) = []) :
    checkGoalCompletion db uid gid now = (db, false) ∧
    allRequiredObjectivesComplete db uid cid = true := by
  constructor
  · unfold checkGoalCompletion
    rw [hg]
    rfl
  · unfold allRequiredObjectivesComplete
    rw [List.all_eq_true]
    intro o ho
    rcases List.mem_filter.mp ho with ⟨hmem, hco⟩
    have hreq : o.is_required = false := by
      by_contra h
      have h' : o.is_required = true := by simpa using h
      have hin : o ∈ db.objectives.filter (fun o => o.challenge_id == cid && o.is_required) := by
        rw [List.mem_filter]
        refine ⟨hmem, ?_⟩
        simp [hco, h']
      rw [hc] at hin
      simp at hin
    simp [hreq]

/-- Witness for `C2_amended_zero_required` at `exDB2` (goal id 3 has no
steps at all; challenge 1 has only a non-required objective). -/
theorem C2_amended_zero_required_witness :
    checkGoalCompletion exDB2 1 3 100 = (exDB2, false) ∧
    allRequiredObjectivesComplete exDB2 1 1 = true :=
  C2_amended_zero_required exDB2 1 3 1 100 (by decide) (by decide)

/-- Claim C1, counterexample: in `exDB1` both invariants hold and user 1
has exactly one IN_PROGRESS row (challenge 1), yet the public mutation
`complete_challenge` on chained challenge 2 activates challenge 3 and
leaves two IN_PROGRESS rows, so not every public mutation preserves the
at-most-one-IN_PROGRESS invariant. -/
theorem C1_counterexample :
    progressKeysNodup exDB1.challenge_progress ∧
    inProgressCount exDB1 1 = 1 ∧
    inProgressCount (complete_challenge exDB1 1 2 100).1 1 = 2 := by decide

/-- Claim C2, counterexample: challenge 1 of `exDB2` has zero required
objectives (its only objective 10 is optional), yet completing objective
10 auto-completes the challenge: the challenge path treats an empty
required set as all-complete, contradicting the claim that the check
returns false uniformly on both paths. -/
theorem C2_counterexample :
    exDB2.objectives.filter (fun o => o.challenge_id == 1 && o.is_required) = [] ∧
    ((complete_objective exDB2 1 10 100).1.challenge_progress.find?
        (progressKeyPred 1 1)).map (fun p => p.status) = some ChallengeStatus.COMPLETE := by
  decide

/-- Claim C3, counterexample: in `exDB3` challenge 5 has
`next_challenge_id = 7` and no `ON_COMPLETE` link; completing its last
required objective leaves challenge 7 without any progress row (the
objective-completion path never consults `next_challenge_id`), while the
unrelated challenge 6 is picked up by the trailing get-or-assign
fallback instead. -/
theorem C3_counterexample :
    (exDB3.challenges.find? (fun c => c.id == 5)).map (fun c => c.next_challenge_id) =
      some (some 7) ∧
    exDB3.challenge_links = [] ∧
    ((complete_objective exDB3 1 50 100).1.challenge_progress.find? (progressKeyPred 1 7)) =
      none ∧
    ((complete_objective exDB3 1 50 100).1.challenge_progress.find?
        (progressKeyPred 1 6)).map (fun p => p.status) = some ChallengeStatus.IN_PROGRESS := by
  decide

/-- Claim C4, counterexample: the progress row of user 1 on challenge 2
in `exDB4` already carries `started_at = 5`, yet the assign performed by
`swap_challenge` overwrites it with the current time 100, so
`started_at`, once set, is not preserved across swap assigns. -/
theorem C4_counterexample :
    (exDB4.challenge_progress.find? (progressKeyPred 1 2)).map (fun p => p.started_at) =
      some (some 5) ∧
    ((swap_challenge exDB4 1 100).1.challenge_progress.find? (progressKeyPred 1 2)).map
      (fun p => p.started_at) = some (some 100) ∧
    (swap_challenge exDB4 1 100).2 = Except.ok 2 := by decide

/-- Claim C8, counterexample: completing objective 10 of `exDB8` at time
100 stamps `completed_at = 100`; re-invoking the operation at time 200
does not error but restamps `completed_at = 200`, so the timestamp of an
already-complete child is not left unchanged. -/
theorem C8_counterexample :
    ((complete_objective exDB8 1 10 100).1.objective_progress.find?
        (fun p => p.user_id == 1 && p.objective_id == 10)).map (fun p => p.completed_at) =
      some (some 100) ∧
    ((complete_objective (complete_objective exDB8 1 10 100).1 1 10 200).1.objective_progress.find?
        (fun p => p.user_id == 1 && p.objective_id == 10)).map (fun p => p.completed_at) =
      some (some 200) ∧
    (complete_objective (complete_objective exDB8 1 10 100).1 1 10 200).2 = Except.ok () := by
  decide

/-- Claim C9, counterexample: user 1 has no completion history in the
empty store; generating notifications at time 0 emits the welcome nudge,
and generating again three days later (the first nudge now being outside
the one-day suppression window, and the welcome dedup key never being
consulted) emits a second welcome nudge, so the welcome nudge is not
emitted at most once in total. -/
theorem C9_counterexample :
    (((generate_notifications (generate_notifications emptyDB 1 0 0).1 1 259200 0).1).notifications.filter
      (fun n => n.dedup_key == some "nudge:inactivity:1:welcome")).length = 2 := by decide

end Toucann
